import Mathlib

/-!
# Verification of the `google-sheets` widget (`src/google-sheets.js`)

Shallow embedding of the Polymer `<google-sheets>` element in Lean 4.

* JavaScript numbers that flow through the bitwise `^` operator are modelled as
  `Int` with the ECMAScript `ToInt32`/`ToUint32` truncation made explicit
  (`% 2^32`).  Integer-valued doubles are exact below `2^53`; every definition
  below is exact on a strictly larger range (`36^34 > 2^53`), so the models
  agree with JavaScript on all inputs where JavaScript itself is exact.
* `parseInt` and `Number.prototype.toString(radix)` are modelled from their
  ECMAScript semantics: optional leading whitespace, an optional sign, the
  longest prefix of radix digits (upper- or lowercase), `NaN` as `Option.none`.
* The widget itself (property observers, ajax elements, the shared row cache)
  is modelled as a state machine further below.
-/

namespace GoogleSheets

/-! ## ECMAScript numeric primitives -/

/-- `ToUint32`: the number reduced into `[0, 2^32)` (bit pattern of `ToInt32`). -/
def toUint32 (i : Int) : Nat := (i % (2 : Int) ^ 32).toNat

/-- Read a 32-bit pattern back as a signed 32-bit integer. -/
def ofUint32 (u : Nat) : Int :=
  if u < 2 ^ 31 then (u : Int) else (u : Int) - 2 ^ 32

/-- JavaScript `a ^ b`: both operands pass through `ToInt32`, the 32-bit
patterns are xor-ed, and the result is read back as a signed 32-bit integer. -/
def jsXor (a b : Int) : Int := ofUint32 (Nat.xor (toUint32 a) (toUint32 b))

/-- The character for digit value `d` (`0`–`9`, then lowercase `a`–`z`),
as produced by `Number.prototype.toString(radix)`. -/
def digitChar (d : Nat) : Char :=
  if d < 10 then Char.ofNat (48 + d) else Char.ofNat (87 + d)

/-- The digit value of a character under `parseInt` (which accepts both the
lowercase and the uppercase letters). -/
def digitVal? (c : Char) : Option Nat :=
  if 48 ≤ c.toNat ∧ c.toNat ≤ 57 then some (c.toNat - 48)
  else if 97 ≤ c.toNat ∧ c.toNat ≤ 122 then some (c.toNat - 87)
  else if 65 ≤ c.toNat ∧ c.toNat ≤ 90 then some (c.toNat - 55)
  else none

/-- Is `c` a digit of base `b`? -/
def isDigitB (b : Nat) (c : Char) : Bool :=
  match digitVal? c with
  | some d => d < b
  | none => false

/-- ECMAScript `StrWhiteSpaceChar` (the ASCII part plus NBSP), skipped by
`parseInt` before the optional sign. -/
def isJsSpace (c : Char) : Bool :=
  c = ' ' || c = '\t' || c = '\n' || c = '\r' ||
  c.toNat = 11 || c.toNat = 12 || c.toNat = 160

/-- Big-endian base-`b` digit list of `n`, with explicit fuel (the digits of
`n` are prepended to `acc`).  With fuel `f` the result is exact for all
`n < b ^ f`. -/
def toBaseCore (b : Nat) : Nat → Nat → List Nat → List Nat
  | 0, _, acc => acc
  | fuel + 1, n, acc =>
    let d := n % b
    let q := n / b
    if q = 0 then d :: acc else toBaseCore b fuel q (d :: acc)

/-- Decimal rendering of a natural number (`ToString` on a non-negative
integer-valued JavaScript number).  Fuel `n + 1` makes it exact for every `n`
(`n < 10 ^ (n + 1)`). -/
def natDecimal (n : Nat) : String :=
  String.mk ((toBaseCore 10 (n + 1) n []).map digitChar)

/-- Base-36 rendering of a natural number, as produced by
`Number.prototype.toString(36)`.  Fuel 34 makes it exact for all
`n < 36 ^ 34`, far beyond the `2 ^ 53` range where JavaScript numbers are
themselves exact integers. -/
def natBase36 (n : Nat) : String :=
  String.mk ((toBaseCore 36 34 n []).map digitChar)

/-- `Number.prototype.toString(36)` on an integer-valued number: a `-` sign
followed by the base-36 magnitude. -/
def jsNumToString36 (i : Int) : String :=
  if i < 0 then "-" ++ natBase36 i.natAbs else natBase36 i.toNat

/-- Decimal `ToString` on an integer-valued number. -/
def jsNumToString10 (i : Int) : String :=
  if i < 0 then "-" ++ natDecimal i.natAbs else natDecimal i.toNat

/-- The big-endian value of a digit list in base `b`. -/
def valBE (b : Nat) (ds : List Nat) : Nat :=
  ds.foldl (fun a d => a * b + d) 0

/-- The values of the longest base-`b` digit prefix of `cs`. -/
def digitsOf (b : Nat) (cs : List Char) : List Nat :=
  (cs.takeWhile (isDigitB b)).map (fun c => (digitVal? c).getD 0)

/-- Negate when `neg` is set (the optional sign consumed by `parseInt`). -/
def jsSign (neg : Bool) (v : Nat) : Int :=
  if neg then -(v : Int) else (v : Int)

/-- The digit-consuming tail of `parseInt`: `NaN` (`none`) when no digit
follows, otherwise the signed value of the longest digit prefix. -/
def jsParseDigits (b : Nat) (neg : Bool) (cs : List Char) : Option Int :=
  match digitsOf b cs with
  | [] => none
  | d :: ds => some (jsSign neg (valBE b (d :: ds)))

/-- ECMAScript `parseInt(s, b)` for a radix `b ≠ 16`: skip whitespace, consume
an optional sign, then the longest digit prefix; `NaN` is `none`.  Exact
integer arithmetic (JavaScript rounds to a double above `2 ^ 53`; every use in
this development stays far below that). -/
def jsParseInt (b : Nat) (s : String) : Option Int :=
  match s.toList.dropWhile isJsSpace with
  | [] => none
  | c :: rest =>
    if c = '-' then jsParseDigits b true rest
    else if c = '+' then jsParseDigits b false rest
    else jsParseDigits b false (c :: rest)

/-! ## The worksheet-id / grid-id codec (`src/google-sheets.js:92-101`) -/

/-- `function wid_to_gid_(wid) { return parseInt(String(wid), 36) ^ 31578; }`

`String(wid)` is the identity on strings; `ToInt32(NaN) = 0`, so a failed
parse enters the xor as `0`. -/
def wid_to_gid_ (wid : String) : Int :=
  match jsParseInt 36 wid with
  | none => jsXor 0 31578
  | some n => jsXor n 31578

/-- `function gid_to_wid_(gid) { return parseInt((gid ^ 31578)).toString(36); }`

`parseInt` applied to the number `gid ^ 31578` first converts it to its
decimal string; we model that composition explicitly.  (`NaN.toString(36)` is
the string `"NaN"`; that branch is unreachable because the decimal rendering
of an int32 always reparses.) -/
def gid_to_wid_ (gid : Int) : String :=
  match jsParseInt 10 (jsNumToString10 (jsXor gid 31578)) with
  | none => "NaN"
  | some p => jsNumToString36 p

/-! ## JavaScript values

The feed objects the widget receives and mutates are modelled as a small
JSON-like value type.  `vDate x` is the object produced by `new Date(x)`;
`vUndefined` is `undefined`. -/

inductive JsVal where
  | vUndefined
  | vNull
  | vBool (b : Bool)
  | vNum (n : Int)
  | vStr (s : String)
  | vDate (arg : JsVal)
  | vArr (xs : List JsVal)
  | vObj (fields : List (String × JsVal))

/-- Runtime errors: reading a property of `null`/`undefined`, calling a
method of something that lacks it, or an explicit `throw new Error(msg)`. -/
inductive JsErr where
  | nullCrash (prop : String)
  | notAFunction (what : String)
  | thrown (msg : String)
deriving DecidableEq

/-- First binding of `f` in an object's field list. -/
def lookupField : List (String × JsVal) → String → Option JsVal
  | [], _ => none
  | (k, v) :: fs, f => if k = f then some v else lookupField fs f

/-- Sequencing of two possibly-throwing evaluation steps (explicit `Except`
bind, kept first-order so proofs can case on it). -/
def bindE {α β : Type} (x : Except JsErr α) (f : α → Except JsErr β) :
    Except JsErr β :=
  match x with
  | .error e => .error e
  | .ok a => f a

/-- JavaScript property read `v.f`: a TypeError on `undefined`/`null`, the
field (or `undefined`) on an object, `undefined` on other values (no property
of a primitive is ever consulted by this element). -/
def jsGet (v : JsVal) (f : String) : Except JsErr JsVal :=
  match v with
  | .vUndefined => .error (.nullCrash f)
  | .vNull => .error (.nullCrash f)
  | .vObj fs => .ok ((lookupField fs f).getD .vUndefined)
  | _ => .ok .vUndefined

/-- JavaScript truthiness.  (`NaN` does not occur as a stored value here.) -/
def truthy : JsVal → Bool
  | .vUndefined => false
  | .vNull => false
  | .vBool b => b
  | .vNum n => n != 0
  | .vStr s => s != ""
  | .vDate _ => true
  | .vArr _ => true
  | .vObj _ => true

/-- Replace (or append) the binding of `f`. -/
def setFields : List (String × JsVal) → String → JsVal → List (String × JsVal)
  | [], f, v => [(f, v)]
  | (k, w) :: fs, f, v =>
    if k = f then (k, v) :: fs else (k, w) :: setFields fs f v

/-- Property write `o.f = v` / Polymer `this.set('o.f', v)`.  Every write in
the element is guarded by a truthy property read, which only an object can
satisfy, so the non-object fallthrough is unreachable. -/
def setField (o : JsVal) (f : String) (v : JsVal) : JsVal :=
  match o with
  | .vObj fs => .vObj (setFields fs f v)
  | other => other

/-- One entry of an author map: `return a.email.$t, a.name.$t` pairs,
evaluated left to right as in the object literal. -/
def authorPair (a : JsVal) : Except JsErr JsVal :=
  bindE (jsGet a "email") fun em =>
  bindE (jsGet em "$t") fun emT =>
  bindE (jsGet a "name") fun nm =>
  bindE (jsGet nm "$t") fun nmT =>
  .ok (.vObj [("email", emT), ("name", nmT)])

def mapAuthors : List JsVal → Except JsErr (List JsVal)
  | [] => .ok []
  | a :: rest =>
    bindE (authorPair a) fun p =>
    bindE (mapAuthors rest) fun tl =>
    .ok (p :: tl)

/-- `x.author && x.author.map(function(a) ...)`: the falsy `author` value
itself when there is no author list, otherwise the mapped array (calling
`.map` on a truthy non-array is a TypeError). -/
def authorsExpr (x : JsVal) : Except JsErr JsVal :=
  bindE (jsGet x "author") fun au =>
  if truthy au then
    match au with
    | .vArr xs => bindE (mapAuthors xs) fun ps => .ok (.vArr ps)
    | _ => .error (.notAFunction "map")
  else
    .ok au

/-- `new Date(x)`. -/
def jsNewDate (x : JsVal) : JsVal := .vDate x

/-- `s.split('/')`, accumulator = current segment reversed. -/
def splitSlashAux : List Char → List Char → List String
  | [], cur => [String.mk cur.reverse]
  | c :: cs, cur =>
    if c = '/' then String.mk cur.reverse :: splitSlashAux cs []
    else splitSlashAux cs (c :: cur)

/-- `s.split('/').slice(-1)[0]`: the last slash-separated segment
(`split` always yields a non-empty array). -/
def lastSegment (s : String) : String :=
  (splitSlashAux s.toList []).getLastD ""

def charsStartWith : List Char → List Char → Bool
  | [], _ => true
  | _ :: _, [] => false
  | n :: ns, c :: cs => n = c && charsStartWith ns cs

def charsContain : List Char → List Char → Bool
  | [], needle => needle.isEmpty
  | c :: cs, needle => charsStartWith needle (c :: cs) || charsContain cs needle

/-- `hay.indexOf(needle) != -1`. -/
def strContains (hay needle : String) : Bool :=
  charsContain hay.toList needle.toList

/-- `link.rel === rel` for one candidate link.  (The JS loop stops at the
first falsy element; feed link arrays are dense objects, so a total Boolean
test is faithful.) -/
def relMatches (l : JsVal) (rel : String) : Bool :=
  match l with
  | .vObj fs =>
    match lookupField fs "rel" with
    | some (.vStr s) => s = rel
    | _ => false
  | _ => false

/-- `getLink_(rel, links)` (`src/google-sheets.js:83-90`): the first link
whose `rel` strictly equals the given one, else `null`. -/
def getLink_ (rel : String) : List JsVal → Option JsVal
  | [] => none
  | l :: ls => if relMatches l rel then some l else getLink_ rel ls

/-! ## The widget state machine

One `<google-sheets>` instance together with its four `iron-ajax` elements,
the process-wide `rowDataCache_`, the log of issued network requests and the
fired `google-sheet-data` events.  Each handler returns `Except JsErr World`;
an uncaught exception aborts the event-loop turn (state changes already made
before the throw are not replayed — no claim inspects a post-exception
state). -/

structure Request where
  element : String
  url : String
  headers : List (String × String)
deriving DecidableEq

/-- `e.target.lastResponse`, collapsed into the event object delivered to the
`on-response` handlers. -/
structure EventObj where
  lastResponse : JsVal

structure World where
  clientId : String
  key : String
  tabId : Nat
  published : Bool
  sheet : JsVal
  tab : JsVal
  rows : JsVal
  rowsAuthors : JsVal
  spreadsheets : JsVal
  worksheetId : Option String
  privHeaders : List (String × String)
  cache : List (String × JsVal)
  requests : List Request
  events : List (String × JsVal)
  pendingPublic : Bool
  pendingList : Bool
  pendingWs : Bool
  pendingRows : Bool

/-- The freshly created element over an empty shared cache: Polymer default
property values (`key`, `clientId` empty, `tabId` 1, `published` false, empty
objects/arrays) and `_worksheetId: null`. -/
def initWorld : World :=
  { clientId := ""
    key := ""
    tabId := 1
    published := false
    sheet := .vObj []
    tab := .vObj []
    rows := .vArr []
    rowsAuthors := .vUndefined
    spreadsheets := .vArr []
    worksheetId := none
    privHeaders := []
    cache := []
    requests := []
    events := []
    pendingPublic := false
    pendingList := false
    pendingWs := false
    pendingRows := false }

def SCOPE_ : String := "https://spreadsheets.google.com/feeds"

/-- String concatenation of `_worksheetId` (JavaScript renders `null` as the
string `"null"`). -/
def widString : Option String → String
  | none => "null"
  | some s => s

/-- `if (this._worksheetId)`: `null` and the empty string are falsy. -/
def widTruthy : Option String → Bool
  | none => false
  | some s => s != ""

/-- `generateCacheKey_` (`79-81`): `this._worksheetId + '_' + this.tabId`. -/
def generateCacheKey_ (wid : Option String) (tabId : Nat) : String :=
  widString wid ++ "_" ++ natDecimal tabId

/-- `_computeGoogleDocsUrl` (`231-237`). -/
def _computeGoogleDocsUrl (key : String) : String :=
  if key != "" then "https://docs.google.com/spreadsheet/" ++ "ccc?key=" ++ key
  else "https://docs.google.com/spreadsheet/"

/-- `_keyChanged` (`243-252`): only the published flow issues a request — the
public row feed on the `publicajax` element (whose headers are never set). -/
def _keyChanged (w : World) : Except JsErr World :=
  if w.published then
    let url := SCOPE_ ++ "/list/" ++ w.key ++ "/" ++
      natDecimal w.tabId ++ "/public/values"
    .ok { w with
      requests := w.requests ++ [{ element := "publicajax", url := url, headers := [] }]
      pendingPublic := true }
  else .ok w

/-- The body of `_tabChanged` (`280-297`) as a transformation of the tab
object: `none` when `tab.title` is falsy (early return), otherwise the
normalized object (authors flattened, `title`/`updated` unwrapped). -/
def tabNorm (t : JsVal) : Except JsErr (Option JsVal) :=
  bindE (jsGet t "title") fun title =>
  if truthy title then
    bindE (authorsExpr t) fun authors =>
    let t1 := setField t "authors" authors
    bindE (jsGet t1 "title") fun title2 =>
    bindE (jsGet title2 "$t") fun titleT =>
    let t2 := setField t1 "title" titleT
    bindE (jsGet t2 "updated") fun upd =>
    bindE (jsGet upd "$t") fun updT =>
    let t3 := setField t2 "updated" (jsNewDate updT)
    let t4 := setField t3 "authors" authors
    .ok (some t4)
  else
    .ok none

/-- `_tabChanged` (`280-297`): normalize `this.tab` in place and fire the
`google-sheet-data` event tagged `tab`. -/
def _tabChanged (w : World) : Except JsErr World :=
  match tabNorm w.tab with
  | .error e => .error e
  | .ok none => .ok w
  | .ok (some t') =>
    .ok { w with tab := t', events := w.events ++ [("tab", t')] }

/-- Polymer `_setTab`: assign the read-only `tab` property, which runs its
observer `_tabChanged`. -/
def _setTab (v : JsVal) (w : World) : Except JsErr World :=
  _tabChanged { w with tab := v }

/-- The body of `_sheetChanged` (`262-278`) on the sheet object: `none` on a
falsy `sheet.title` (early return), otherwise the normalized object together
with the derived worksheet id (last path segment of `sheet.id.$t`). -/
def sheetNorm (s : JsVal) : Except JsErr (Option (JsVal × String)) :=
  bindE (jsGet s "title") fun title =>
  if truthy title then
    bindE (authorsExpr s) fun authors =>
    bindE (jsGet s "title") fun title2 =>
    bindE (jsGet title2 "$t") fun titleT =>
    let s1 := setField s "title" titleT
    bindE (jsGet s1 "updated") fun upd =>
    bindE (jsGet upd "$t") fun updT =>
    let s2 := setField s1 "updated" (jsNewDate updT)
    let s3 := setField s2 "authors" authors
    bindE (jsGet s3 "id") fun idv =>
    bindE (jsGet idv "$t") fun idT =>
    match idT with
    | .vStr idStr => .ok (some (s3, lastSegment idStr))
    | _ => .error (.notAFunction "split")
  else
    .ok none

/-- `_getWorksheet` (`350-359`): throws `workesheetId was not given.` when no
worksheet id is resolved, otherwise issues the worksheet-metadata request on
`worksheetajax` with the private headers. -/
def _getWorksheet (w : World) : Except JsErr World :=
  if widTruthy w.worksheetId then
    let url := SCOPE_ ++ "/worksheets/" ++ widString w.worksheetId ++
      "/private/full/" ++ natDecimal w.tabId
    .ok { w with
      requests := w.requests ++
        [{ element := "worksheetajax", url := url, headers := w.privHeaders }]
      pendingWs := true }
  else
    .error (.thrown "workesheetId was not given.")

/-- `_sheetChanged` (`262-278`): normalize `this.sheet`, record the derived
`_worksheetId`, then continue with `_getWorksheet`. -/
def _sheetChanged (w : World) : Except JsErr World :=
  match sheetNorm w.sheet with
  | .error e => .error e
  | .ok none => .ok w
  | .ok (some (s', wid)) =>
    _getWorksheet { w with sheet := s', worksheetId := some wid }

/-- Polymer `_setSheet`: assign the read-only `sheet` property, running its
observer `_sheetChanged`. -/
def _setSheet (v : JsVal) (w : World) : Except JsErr World :=
  _sheetChanged { w with sheet := v }

/-- `_onCellRows` (`385-412`).  The handler uses only its first parameter:
`e.stopPropagation()` is a TypeError when `e` is `null` (the cache-hit call
site passes `null, null, cachedEntry`, the entry being an ignored third
argument).  On a real event: insert into the cache only when the key is
absent, publish the rows (the `authors` expando set on the rows array is
modelled as the separate field `rowsAuthors`), treat the feed as the tab when
`published`, and fire the `rows` event. -/
def _onCellRows (e : Option EventObj) (w : World) : Except JsErr World :=
  match e with
  | none => .error (.nullCrash "stopPropagation")
  | some ev =>
    bindE (jsGet ev.lastResponse "feed") fun feed =>
    let key := generateCacheKey_ w.worksheetId w.tabId
    let cache' := match lookupField w.cache key with
      | some _ => w.cache
      | none => w.cache ++
          [(key, JsVal.vObj [("response", JsVal.vObj [("feed", feed)])])]
    bindE (jsGet feed "entry") fun entries =>
    bindE (authorsExpr feed) fun authors =>
    let w1 := { w with cache := cache', rows := entries, rowsAuthors := authors }
    bindE (if w1.published then _setTab feed w1 else .ok w1) fun w2 =>
    .ok { w2 with events := w2.events ++ [("rows", w2.rows)] }

/-- `_getCellRows` (`369-383`): serve from the shared cache when the key is
present, otherwise issue the private row-feed request on `cellrowsajax`. -/
def _getCellRows (w : World) : Except JsErr World :=
  match lookupField w.cache (generateCacheKey_ w.worksheetId w.tabId) with
  | some _ => _onCellRows none w
  | none =>
    let url := SCOPE_ ++ "/list/" ++ widString w.worksheetId ++ "/" ++
      natDecimal w.tabId ++ "/private/full"
    .ok { w with
      requests := w.requests ++
        [{ element := "cellrowsajax", url := url, headers := w.privHeaders }]
      pendingRows := true }

/-- `_onWorksheet` (`361-367`): adopt the worksheet entry as the tab, then
fetch the cell rows. -/
def _onWorksheet (ev : EventObj) (w : World) : Except JsErr World :=
  bindE (jsGet ev.lastResponse "entry") fun entry =>
  bindE (_setTab entry w) fun w1 =>
  _getCellRows w1

/-- The linear scan of `_onSpreadsheetList` (`339-347`): the first entry
whose alternate link's `href` contains the key as a substring. -/
def findMatching (key : String) : List JsVal → Except JsErr (Option JsVal)
  | [] => .ok none
  | entry :: rest =>
    bindE (jsGet entry "link") fun links =>
    match links with
    | .vUndefined => .error (.nullCrash "0")
    | .vNull => .error (.nullCrash "0")
    | .vArr ls =>
      (match getLink_ "alternate" ls with
      | some altLink =>
        bindE (jsGet altLink "href") fun href =>
        match href with
        | .vStr h =>
          if strContains h key then .ok (some entry) else findMatching key rest
        | _ => .error (.notAFunction "indexOf")
      | none => findMatching key rest)
    | _ => findMatching key rest

/-- The key-directed tail of `_onSpreadsheetList` (`338-347`), run on the
widget that already published the list: when a key is configured, scan the
entries and adopt the first match as the active sheet (which triggers
worksheet resolution). -/
def _spreadsheetScan (entries : JsVal) (w1 : World) : Except JsErr World :=
  if w1.key = "" then
    .ok w1
  else
    match entries with
    | .vUndefined => .error (.nullCrash "0")
    | .vNull => .error (.nullCrash "0")
    | .vArr es =>
      (match findMatching w1.key es with
      | .error e => .error e
      | .ok none => .ok w1
      | .ok (some entry) => _setSheet entry w1)
    | _ => .ok w1

/-- `_onSpreadsheetList` (`326-348`): publish the list, fire the
`spreadsheets` event, and — when a key is configured — adopt the first
matching entry as the active sheet. -/
def _onSpreadsheetList (ev : EventObj) (w : World) : Except JsErr World :=
  bindE (jsGet ev.lastResponse "feed") fun feed =>
  bindE (jsGet feed "entry") fun entries =>
  _spreadsheetScan entries
    { w with spreadsheets := entries
             events := w.events ++ [("spreadsheets", entries)] }

/-- `_listSpreadsheets` (`320-324`): issue the authenticated spreadsheet-list
request on `listsheetsajax`. -/
def _listSpreadsheets (w : World) : Except JsErr World :=
  .ok { w with
    requests := w.requests ++
      [{ element := "listsheetsajax",
         url := SCOPE_ ++ "/spreadsheets/private/full",
         headers := w.privHeaders }]
    pendingList := true }

/-- `_onSignInSuccess` (`299-313`): the bearer token (read from the gapi auth
instance, here the action's parameter) becomes the Authorization header of
the three private ajax elements, then the spreadsheet list is fetched. -/
def _onSignInSuccess (token : String) (w : World) : Except JsErr World :=
  _listSpreadsheets
    { w with privHeaders := [("Authorization", "Bearer " ++ token)] }

/-- `_onSignInFail` (`315-318`): only `console.log`. -/
def _onSignInFail (w : World) : Except JsErr World := .ok w

/-- `_tabIdChanged` (`254-260`). -/
def _tabIdChanged (w : World) : Except JsErr World :=
  if widTruthy w.worksheetId then _getCellRows w
  else if w.published then _keyChanged w
  else .ok w

/-- `_configUpdate` (`239-241`): the shared observer of `clientId`, `tabId`
and `published`; it ignores its arguments and defers to `_tabIdChanged`. -/
def _configUpdate (w : World) : Except JsErr World := _tabIdChanged w

/-! ## External actions and traces -/

/-- The widget's external surface: property writes from the host page, the
sign-in bridge, and network responses on the four ajax elements. -/
inductive Act where
  | setClientId (v : String)
  | setKey (v : String)
  | setTabId (v : Nat)
  | setPublished (v : Bool)
  | signInSuccess (token : String)
  | signInFail
  | respPublic (ev : EventObj)
  | respList (ev : EventObj)
  | respWorksheet (ev : EventObj)
  | respRows (ev : EventObj)

/-- One event-loop turn.  Polymer observers fire on an actual change of a
primitive property; a network response is delivered only while its element
has a request in flight (otherwise nothing happens). -/
def step (w : World) : Act → Except JsErr World
  | .setClientId v =>
    if v = w.clientId then .ok w else _configUpdate { w with clientId := v }
  | .setKey v =>
    if v = w.key then .ok w else _keyChanged { w with key := v }
  | .setTabId v =>
    if v = w.tabId then .ok w else _configUpdate { w with tabId := v }
  | .setPublished v =>
    if v = w.published then .ok w else _configUpdate { w with published := v }
  | .signInSuccess tok => _onSignInSuccess tok w
  | .signInFail => _onSignInFail w
  | .respPublic ev =>
    if w.pendingPublic then _onCellRows (some ev) { w with pendingPublic := false }
    else .ok w
  | .respList ev =>
    if w.pendingList then _onSpreadsheetList ev { w with pendingList := false }
    else .ok w
  | .respWorksheet ev =>
    if w.pendingWs then _onWorksheet ev { w with pendingWs := false }
    else .ok w
  | .respRows ev =>
    if w.pendingRows then _onCellRows (some ev) { w with pendingRows := false }
    else .ok w

/-- Run a trace of actions; an uncaught exception aborts the whole run. -/
def runAll (w : World) : List Act → Except JsErr World
  | [] => .ok w
  | a :: rest =>
    match step w a with
    | .error e => .error e
    | .ok w' => runAll w' rest

/-! ## Request-log predicates -/

def isPubReq (r : Request) : Bool := r.element = "publicajax"

def isListReq (r : Request) : Bool := r.element = "listsheetsajax"

def isWsReq (r : Request) : Bool := r.element = "worksheetajax"

def isRowsReq (r : Request) : Bool := r.element = "cellrowsajax"

def anyList (rs : List Request) : Bool := rs.any isListReq

def anyWs (rs : List Request) : Bool := rs.any isWsReq

/-- The private-flow stage discipline over a request log, scanning left to
right with flags for the stages already seen: no public request, every
worksheet-metadata request strictly preceded by a spreadsheet-list request,
every private row request strictly preceded by a worksheet-metadata
request. -/
def stagedFrom : Bool → Bool → List Request → Prop
  | _, _, [] => True
  | hasL, hasW, r :: rs =>
    if isPubReq r then False
    else if isListReq r then stagedFrom true hasW rs
    else if isWsReq r then hasL = true ∧ stagedFrom hasL true rs
    else if isRowsReq r then hasW = true ∧ stagedFrom hasL hasW rs
    else False

def staged (rs : List Request) : Prop := stagedFrom false false rs

/-- Actions available while the widget is configured private
(`published = false` throughout). -/
def privAct : Act → Bool
  | .setPublished _ => false
  | _ => true

/-- Actions before any authentication: additionally no sign-in success. -/
def quietAct : Act → Bool
  | .setPublished _ => false
  | .signInSuccess _ => false
  | _ => true

/-- Invariant of the private flow: the widget stays unpublished and its
request log observes the list → worksheet → rows stage discipline, with the
pending flags and the resolved worksheet id backed by requests already in
the log. -/
structure PrivInv (w : World) : Prop where
  pub : w.published = false
  st : staged w.requests
  pubPend : w.pendingPublic = false
  listPend : w.pendingList = true → anyList w.requests = true
  wsPend : w.pendingWs = true → anyWs w.requests = true ∧ anyList w.requests = true
  widReq : widTruthy w.worksheetId = true →
    anyWs w.requests = true ∧ anyList w.requests = true

/-- Invariant before any sign-in: nothing has been requested or resolved. -/
structure QuietInv (w : World) : Prop where
  pub : w.published = false
  reqs : w.requests = []
  wid : w.worksheetId = none
  pubPend : w.pendingPublic = false
  listPend : w.pendingList = false
  wsPend : w.pendingWs = false
  rowsPend : w.pendingRows = false

/-- The cache only ever grows (by appending fresh entries). -/
def cacheExtends (w w' : World) : Prop :=
  ∃ tl, w'.cache = w.cache ++ tl

/-- Alphanumeric characters (exactly the base-36 digit characters). -/
def isAlnum (c : Char) : Bool := (digitVal? c).isSome

/-! ## Example data for concrete runs -/

/-- A row feed with a single row entry and no author list. -/
def exampleFeed : JsVal :=
  .vObj [("entry", .vArr [.vObj [("gsx$lat", .vObj [("$t", .vStr "1.0")])]])]

/-- The ajax event delivering `exampleFeed` as a row response. -/
def exampleRowsEv : EventObj := { lastResponse := .vObj [("feed", exampleFeed)] }

/-- A private widget whose worksheet id has been resolved to `od4`. -/
def exampleResolved : World := { initWorld with worksheetId := some "od4" }

/-- `exampleResolved` after `_getCellRows` issued the private row request. -/
def exampleRequested : World := { exampleResolved with
  requests := [⟨"cellrowsajax",
    "https://spreadsheets.google.com/feeds/list/od4/1/private/full", []⟩]
  pendingRows := true }

/-- `exampleRequested` after the row response was delivered: the shared cache
holds the (wrapped) feed under key `od4_1`, the rows are published and the
`rows` event has fired. -/
def exampleCached : World := { exampleRequested with
  pendingRows := false
  cache := [("od4_1", .vObj [("response", .vObj [("feed", exampleFeed)])])]
  rows := .vArr [.vObj [("gsx$lat", .vObj [("$t", .vStr "1.0")])]]
  rowsAuthors := .vUndefined
  events := [("rows", .vArr [.vObj [("gsx$lat", .vObj [("$t", .vStr "1.0")])]])] }

/-- A wrapped text/timestamp field as the feed API returns it. -/
def wrapText (s : String) : JsVal := .vObj [("$t", .vStr s)]

/-- One author entry of a feed response. -/
def authorIn (em nm : String) : JsVal :=
  .vObj [("email", wrapText em), ("name", wrapText nm)]

/-- One flattened author pair as the element publishes it. -/
def authorOut (em nm : String) : JsVal :=
  .vObj [("email", .vStr em), ("name", .vStr nm)]

/-- A sheet response with wrapped `title`/`updated`/`id` fields and an author
list. -/
def sheetResp (t ts idStr : String) (auths : List (String × String)) : JsVal :=
  .vObj [("id", wrapText idStr), ("updated", wrapText ts), ("title", wrapText t),
         ("author", .vArr (auths.map fun p => authorIn p.1 p.2))]

/-- The projection of `sheetResp` established by the C8 theorem: plain title,
date-valued `updated`, flattened `authors` in input order. -/
def sheetRespNorm (t ts idStr : String) (auths : List (String × String)) : JsVal :=
  .vObj [("id", wrapText idStr), ("updated", .vDate (.vStr ts)), ("title", .vStr t),
         ("author", .vArr (auths.map fun p => authorIn p.1 p.2)),
         ("authors", .vArr (auths.map fun p => authorOut p.1 p.2))]

/-- A tab (worksheet metadata) response with wrapped fields. -/
def tabResp (t ts : String) (auths : List (String × String)) : JsVal :=
  .vObj [("updated", wrapText ts), ("title", wrapText t),
         ("author", .vArr (auths.map fun p => authorIn p.1 p.2))]

/-- The projection of `tabResp` established by the C8 theorem. -/
def tabRespNorm (t ts : String) (auths : List (String × String)) : JsVal :=
  .vObj [("updated", .vDate (.vStr ts)), ("title", .vStr t),
         ("author", .vArr (auths.map fun p => authorIn p.1 p.2)),
         ("authors", .vArr (auths.map fun p => authorOut p.1 p.2))]

/-- A spreadsheet-list entry whose alternate link contains the key `KEY` and
whose feed id ends in the worksheet path segment `od4`. -/
def sampleSheetEntry : JsVal :=
  .vObj [("id", wrapText
            "https://spreadsheets.google.com/feeds/spreadsheets/private/full/od4"),
         ("updated", wrapText "2015-06-01T00:00:00.000Z"),
         ("title", wrapText "My Sheet"),
         ("link", .vArr [.vObj [("rel", .vStr "alternate"),
            ("href", .vStr "https://docs.google.com/spreadsheets/d/KEY/edit")]])]

/-- The spreadsheet-list response containing `sampleSheetEntry`. -/
def sampleListEv : EventObj :=
  { lastResponse := .vObj [("feed", .vObj [("entry", .vArr [sampleSheetEntry])])] }

/-- A worksheet-metadata response entry. -/
def sampleTabEntry : JsVal :=
  .vObj [("title", wrapText "Sheet1"),
         ("updated", wrapText "2015-06-01T00:00:00.000Z")]

/-- The worksheet-metadata response delivering `sampleTabEntry`. -/
def sampleWorksheetEv : EventObj :=
  { lastResponse := .vObj [("entry", sampleTabEntry)] }


/-! ## Arithmetic lemmas about the primitives -/

theorem toUint32_of_nonneg_lt {i : Int} (h0 : 0 ≤ i) (h : i < 2 ^ 32) :
    toUint32 i = i.toNat := by
  unfold toUint32
  rw [Int.emod_eq_of_lt h0 (by exact_mod_cast h)]

theorem toUint32_natCast {a : Nat} (h : a < 2 ^ 32) : toUint32 (a : Int) = a := by
  rw [toUint32_of_nonneg_lt (by positivity) (by exact_mod_cast h), Int.toNat_natCast]

theorem ofUint32_of_lt {u : Nat} (h : u < 2 ^ 31) : ofUint32 u = (u : Int) := by
  unfold ofUint32
  rw [if_pos h]

theorem jsXor_natCast {a b : Nat} (ha : a < 2 ^ 31) (hb : b < 2 ^ 31) :
    jsXor (a : Int) (b : Int) = ((a ^^^ b : Nat) : Int) := by
  have h32 : (2 : Nat) ^ 31 < 2 ^ 32 := by norm_num
  unfold jsXor
  rw [toUint32_natCast (lt_trans ha h32), toUint32_natCast (lt_trans hb h32)]
  exact ofUint32_of_lt (Nat.xor_lt_two_pow ha hb)

/-! ## Digit-list lemmas -/

theorem toBaseCore_append (b : Nat) :
    ∀ fuel n acc, toBaseCore b fuel n acc = toBaseCore b fuel n [] ++ acc := by
  intro fuel
  induction fuel with
  | zero => intro n acc; simp [toBaseCore]
  | succ f ih =>
    intro n acc
    simp only [toBaseCore]
    by_cases hq : n / b = 0
    · simp [hq]
    · simp only [if_neg hq]
      rw [ih (n / b) (n % b :: acc), ih (n / b) [n % b], List.append_assoc]
      rfl

theorem valBE_append_singleton (b : Nat) (ds : List Nat) (d : Nat) :
    valBE b (ds ++ [d]) = valBE b ds * b + d := by
  unfold valBE
  rw [List.foldl_append]
  rfl

theorem valBE_toBaseCore (b : Nat) (hb : 2 ≤ b) :
    ∀ fuel n, n < b ^ fuel → valBE b (toBaseCore b fuel n []) = n := by
  intro fuel
  have hb0 : 0 < b := lt_of_lt_of_le (by norm_num) hb
  induction fuel with
  | zero =>
    intro n hn
    have hn0 : n = 0 := Nat.lt_one_iff.mp (by simpa using hn)
    subst hn0
    simp [toBaseCore, valBE]
  | succ f ih =>
    intro n hn
    simp only [toBaseCore]
    by_cases hq : n / b = 0
    · have hnb : n < b := (Nat.div_eq_zero_iff hb0).mp hq
      simp [hq, valBE, Nat.mod_eq_of_lt hnb]
    · rw [if_neg hq, toBaseCore_append,
        valBE_append_singleton,
        ih (n / b) (by
          rw [Nat.div_lt_iff_lt_mul hb0]
          calc n < b ^ (f + 1) := hn
            _ = b ^ f * b := by ring)]
      exact Nat.div_add_mod' n b

theorem toBaseCore_digit_lt (b : Nat) (hb0 : 0 < b) :
    ∀ fuel n d, d ∈ toBaseCore b fuel n [] → d < b := by
  intro fuel
  induction fuel with
  | zero => intro n d hd; simp [toBaseCore] at hd
  | succ f ih =>
    intro n d hd
    simp only [toBaseCore] at hd
    by_cases hq : n / b = 0
    · simp [hq] at hd
      subst hd
      exact Nat.mod_lt n hb0
    · rw [if_neg hq, toBaseCore_append] at hd
      rcases List.mem_append.mp hd with h | h
      · exact ih (n / b) d h
      · simp at h
        subst h
        exact Nat.mod_lt n hb0

theorem toBaseCore_ne_nil (b fuel n : Nat) :
    toBaseCore b (fuel + 1) n [] ≠ [] := by
  simp only [toBaseCore]
  by_cases hq : n / b = 0
  · simp [hq]
  · rw [if_neg hq, toBaseCore_append]
    simp

/-! ## Character-level facts (settled by `decide` over the digit range) -/

theorem digitVal?_digitChar : ∀ d, d < 36 → digitVal? (digitChar d) = some d := by
  decide

theorem digitChar_not_space : ∀ d, d < 36 → isJsSpace (digitChar d) = false := by
  decide

theorem digitChar_ne_sign : ∀ d, d < 36 → digitChar d ≠ '-' ∧ digitChar d ≠ '+' := by
  decide

theorem isDigitB_digitChar {b : Nat} (hb : b ≤ 36) :
    ∀ d, d < b → isDigitB b (digitChar d) = true := by
  intro d hd
  unfold isDigitB
  rw [digitVal?_digitChar d (lt_of_lt_of_le hd hb)]
  simpa using hd

/-! ## Parse-of-print round trips -/

theorem digitsOf_map_digitChar {b : Nat} (hb : b ≤ 36) :
    ∀ ds : List Nat, (∀ d ∈ ds, d < b) →
      digitsOf b (ds.map digitChar) = ds := by
  intro ds
  induction ds with
  | nil => intro _; simp [digitsOf]
  | cons d ds ih =>
    intro h
    have hd : d < b := h d (List.mem_cons_self d ds)
    have hds : ∀ x ∈ ds, x < b := fun x hx => h x (List.mem_cons_of_mem d hx)
    have ihds := ih hds
    unfold digitsOf at ihds ⊢
    simp [List.takeWhile_cons, isDigitB_digitChar hb d hd,
      digitVal?_digitChar d (lt_of_lt_of_le hd hb), ihds]

theorem toList_mk (cs : List Char) : (String.mk cs).toList = cs := rfl

/-- Parsing the base-36 rendering of `n < 36 ^ 34` gives back exactly `n`. -/
theorem jsParseInt_natBase36 {n : Nat} (hn : n < 36 ^ 34) :
    jsParseInt 36 (natBase36 n) = some (n : Int) := by
  unfold natBase36 jsParseInt
  rw [toList_mk]
  rcases hds : toBaseCore 36 34 n [] with _ | ⟨d, ds⟩
  · exact absurd hds (toBaseCore_ne_nil 36 33 n)
  · have hall : ∀ x ∈ toBaseCore 36 34 n [], x < 36 :=
      fun x hx => toBaseCore_digit_lt 36 (by norm_num) 34 n x hx
    rw [hds] at hall
    have hd : d < 36 := hall d (List.mem_cons_self d ds)
    simp only [List.map_cons, List.dropWhile_cons,
      digitChar_not_space d hd, Bool.false_eq_true, if_false]
    rw [if_neg (digitChar_ne_sign d hd).1, if_neg (digitChar_ne_sign d hd).2]
    unfold jsParseDigits
    have hmap : digitsOf 36 ((d :: ds).map digitChar) = d :: ds :=
      digitsOf_map_digitChar (le_refl 36) (d :: ds) hall
    simp only [List.map_cons] at hmap
    rw [hmap]
    have hval : valBE 36 (d :: ds) = n := by
      have := valBE_toBaseCore 36 (by norm_num) 34 n hn
      rwa [hds] at this
    simp [jsSign, hval]

/-- Parsing the decimal rendering of any `n` gives back exactly `n`. -/
theorem jsParseInt_natDecimal (n : Nat) :
    jsParseInt 10 (natDecimal n) = some (n : Int) := by
  have hn : n < 10 ^ (n + 1) := by
    calc n < 2 ^ n := Nat.lt_two_pow n
      _ ≤ 10 ^ n := Nat.pow_le_pow_left (by norm_num) n
      _ < 10 ^ (n + 1) := Nat.pow_lt_pow_succ (by norm_num)
  unfold natDecimal jsParseInt
  rw [toList_mk]
  rcases hds : toBaseCore 10 (n + 1) n [] with _ | ⟨d, ds⟩
  · exact absurd hds (toBaseCore_ne_nil 10 n n)
  · have hall : ∀ x ∈ toBaseCore 10 (n + 1) n [], x < 10 :=
      fun x hx => toBaseCore_digit_lt 10 (by norm_num) (n + 1) n x hx
    rw [hds] at hall
    have hd : d < 10 := hall d (List.mem_cons_self d ds)
    have hd36 : d < 36 := lt_trans hd (by norm_num)
    simp only [List.map_cons, List.dropWhile_cons,
      digitChar_not_space d hd36, Bool.false_eq_true, if_false]
    rw [if_neg (digitChar_ne_sign d hd36).1, if_neg (digitChar_ne_sign d hd36).2]
    unfold jsParseDigits
    have hmap : digitsOf 10 ((d :: ds).map digitChar) = d :: ds :=
      digitsOf_map_digitChar (by norm_num) (d :: ds) hall
    simp only [List.map_cons] at hmap
    rw [hmap]
    have hval : valBE 10 (d :: ds) = n := by
      have := valBE_toBaseCore 10 (by norm_num) (n + 1) n hn
      rwa [hds] at this
    simp [jsSign, hval]

theorem natDecimal_injective {m n : Nat} (h : natDecimal m = natDecimal n) :
    m = n := by
  have hm := jsParseInt_natDecimal m
  rw [h, jsParseInt_natDecimal n] at hm
  exact_mod_cast Option.some_injective _ hm.symm

/-! ## Codec round-trip lemmas -/

theorem wid_gid_step (m : Nat) (hm : m < 2 ^ 31) :
    wid_to_gid_ (natBase36 m) = ((m ^^^ 31578 : Nat) : Int) := by
  unfold wid_to_gid_
  rw [jsParseInt_natBase36 (lt_trans hm (by norm_num))]
  have := jsXor_natCast hm (show (31578 : Nat) < 2 ^ 31 by norm_num)
  simpa using this

theorem gid_wid_step (m : Nat) (hm : m < 2 ^ 31) :
    gid_to_wid_ ((m : Int)) = natBase36 (m ^^^ 31578) := by
  unfold gid_to_wid_
  have hx : jsXor (m : Int) 31578 = ((m ^^^ 31578 : Nat) : Int) := by
    have := jsXor_natCast hm (show (31578 : Nat) < 2 ^ 31 by norm_num)
    simpa using this
  rw [hx]
  have hns : jsNumToString10 ((m ^^^ 31578 : Nat) : Int) = natDecimal (m ^^^ 31578) := by
    unfold jsNumToString10
    rw [if_neg (not_lt.mpr (Int.natCast_nonneg _))]
    simp
  rw [hns, jsParseInt_natDecimal]
  simp [jsNumToString36, show ¬(((m ^^^ 31578 : Nat) : Int) < 0) from
    not_lt.mpr (Int.natCast_nonneg _)]

/-- Claim C1, counterexample: `"zik0zk"` is the canonical base-36 numeral of
`2 ^ 31`, yet the codec does not round-trip on it — JavaScript `^` truncates
to 32-bit signed integers, so the worksheet id comes back as `"-zik0zk"`. -/
theorem codec_roundtrip_counterexample :
    natBase36 2147483648 = "zik0zk" ∧
    gid_to_wid_ (wid_to_gid_ "zik0zk") = "-zik0zk" ∧
    ("-zik0zk" : String) ≠ "zik0zk" := by
  decide

/-- Claim C1 (amended): the codec round-trips exactly on the 32-bit range the
`^` operator preserves: `wid_to_gid_ (gid_to_wid_ g) = g` for every grid id
`0 ≤ g < 2 ^ 31`, and `gid_to_wid_ (wid_to_gid_ w) = w` for every canonical
base-36 worksheet id `w` of value below `2 ^ 31`; in particular `"od4"` maps
to grid id `2` and back. -/
theorem codec_roundtrip :
    (∀ g : Int, 0 ≤ g → g < 2 ^ 31 → wid_to_gid_ (gid_to_wid_ g) = g) ∧
    (∀ n : Nat, n < 2 ^ 31 → gid_to_wid_ (wid_to_gid_ (natBase36 n)) = natBase36 n) ∧
    wid_to_gid_ "od4" = 2 ∧ gid_to_wid_ 2 = "od4" := by
  have hx : ∀ m : Nat, m < 2 ^ 31 → m ^^^ 31578 < 2 ^ 31 := fun m hm =>
    Nat.xor_lt_two_pow hm (by norm_num)
  refine ⟨?_, ?_, by decide, by decide⟩
  · intro g h0 h
    lift g to Nat using h0 with a
    have ha : a < 2 ^ 31 := by exact_mod_cast h
    rw [gid_wid_step a ha, wid_gid_step (a ^^^ 31578) (hx a ha),
      Nat.xor_cancel_right 31578 a]
  · intro n hn
    rw [wid_gid_step n hn, gid_wid_step (n ^^^ 31578) (hx n hn),
      Nat.xor_cancel_right 31578 n]

/-- Witness for `codec_roundtrip` at concrete inputs (`g = 5`, `w = "2"`). -/
theorem codec_roundtrip_witness :
    wid_to_gid_ (gid_to_wid_ 5) = 5 ∧
    gid_to_wid_ (wid_to_gid_ (natBase36 2)) = natBase36 2 :=
  ⟨codec_roundtrip.1 5 (by decide) (by decide),
   codec_roundtrip.2.1 2 (by decide)⟩

/-- Claim C9, counterexample: the space that leads `" 1"` is not a base-36
digit, yet `wid_to_gid_ " 1"` is `31579`, not `31578` — `parseInt` skips
leading whitespace (and an optional sign) before testing for a digit, so the
parse does not yield `NaN` there. -/
theorem wid_to_gid_nan_counterexample :
    digitVal? ' ' = none ∧ wid_to_gid_ " 1" = 31579 ∧ (31579 : Int) ≠ 31578 := by
  decide

/-- Claim C9 (amended): `wid_to_gid_` is a total function on strings (it is a
Lean function, never an exception); whenever the base-36 parse yields `NaN` —
no base-36 digit follows the optional leading whitespace and sign, which
includes the empty string — `ToInt32` coerces the `NaN` to `0` and the
function returns `0 ^ 31578 = 31578`. -/
theorem wid_to_gid_nan :
    (∀ s : String, jsParseInt 36 s = none → wid_to_gid_ s = 31578) ∧
    jsParseInt 36 "" = none := by
  constructor
  · intro s h
    unfold wid_to_gid_
    rw [h]
    decide
  · decide

/-- Witness for `wid_to_gid_nan` at the empty string and at `"_x"`. -/
theorem wid_to_gid_nan_witness :
    wid_to_gid_ "" = 31578 ∧ wid_to_gid_ "_x" = 31578 :=
  ⟨wid_to_gid_nan.1 "" (by decide), wid_to_gid_nan.1 "_x" (by decide)⟩

theorem bindE_ok {α β : Type} (a : α) (f : α → Except JsErr β) :
    bindE (.ok a) f = f a := rfl

theorem bindE_error {α β : Type} (e : JsErr) (f : α → Except JsErr β) :
    bindE (.error e) f = .error e := rfl



/-! ## Basic machine lemmas -/

theorem jsGet_obj (fs : List (String × JsVal)) (f : String) :
    jsGet (.vObj fs) f = .ok ((lookupField fs f).getD .vUndefined) := rfl

theorem sheetNorm_no_title {fs : List (String × JsVal)}
    (h : lookupField fs "title" = none) : sheetNorm (.vObj fs) = .ok none := by
  unfold sheetNorm
  rw [jsGet_obj, h]
  rfl

theorem tabNorm_no_title {fs : List (String × JsVal)}
    (h : lookupField fs "title" = none) : tabNorm (.vObj fs) = .ok none := by
  unfold tabNorm
  rw [jsGet_obj, h]
  rfl

/-! ## Claim theorems: public flow, frame conditions, cache-hit behaviour -/

/-- Claim C6: with `published = true` and a non-empty key, setting `key`
issues exactly one public row-feed GET to
`https://spreadsheets.google.com/feeds/list/{key}/{tabId}/public/values` on
the unauthenticated `publicajax` element — no sign-in interaction, no
worksheet-id resolution step, and no other state change. -/
theorem public_flow_single_request (w : World) (k : String)
    (hpub : w.published = true) (hne : k ≠ "") (hchg : k ≠ w.key) :
    step w (.setKey k) = .ok { w with
      key := k
      requests := w.requests ++
        [⟨"publicajax",
          SCOPE_ ++ "/list/" ++ k ++ "/" ++ natDecimal w.tabId ++ "/public/values",
          []⟩]
      pendingPublic := true } := by
  simp [step, hchg, _keyChanged, hpub]

/-- Witness for `public_flow_single_request`: a fresh published widget whose
key is set to `KEY123`. -/
theorem public_flow_single_request_witness :
    step { initWorld with published := true } (.setKey "KEY123") = .ok
      { initWorld with
        published := true
        key := "KEY123"
        requests := [⟨"publicajax",
          "https://spreadsheets.google.com/feeds/list/KEY123/1/public/values",
          []⟩]
        pendingPublic := true } :=
  public_flow_single_request { initWorld with published := true } "KEY123" rfl
    (by decide) (by decide)

/-- Claim C10: assigning a sheet or tab object that has no `title` field
makes the observer return before any normalization — the assigned object is
not rewritten, no worksheet id is derived, no request is issued, no
`google-sheet-data` event is fired, and all other widget state is left
unchanged. -/
theorem missing_title_frame (w : World) (fs : List (String × JsVal))
    (hnone : lookupField fs "title" = none) :
    _setSheet (.vObj fs) w = .ok { w with sheet := .vObj fs } ∧
    _setTab (.vObj fs) w = .ok { w with tab := .vObj fs } := by
  constructor
  · unfold _setSheet _sheetChanged
    rw [show ({ w with sheet := JsVal.vObj fs } : World).sheet = JsVal.vObj fs from rfl,
      sheetNorm_no_title hnone]
  · unfold _setTab _tabChanged
    rw [show ({ w with tab := JsVal.vObj fs } : World).tab = JsVal.vObj fs from rfl,
      tabNorm_no_title hnone]

/-- Witness for `missing_title_frame` on a fresh widget and an object with
only a `foo` field. -/
theorem missing_title_frame_witness :
    _setSheet (.vObj [("foo", .vStr "x")]) initWorld =
      .ok { initWorld with sheet := .vObj [("foo", .vStr "x")] } ∧
    _setTab (.vObj [("foo", .vStr "x")]) initWorld =
      .ok { initWorld with tab := .vObj [("foo", .vStr "x")] } :=
  missing_title_frame initWorld [("foo", .vStr "x")] rfl

/-- Claim C2 (code bug): the first `(od4, 1)` fetch issues one network
request; after its response the shared cache is populated and exactly one
request has been made in total; the second fetch for the same pair finds the
cache key, issues no further request — but crashes with a TypeError instead
of delivering the cached feed.  `_getCellRows` invokes
`this._onCellRows(null, null, rowDataCache_[key])` while `_onCellRows(e)`
immediately evaluates `e.stopPropagation()`; the cached entry is an ignored
third argument, so on every cache hit `e` is `null` and the handler throws
before reading anything. -/
theorem cache_hit_crashes :
    _getCellRows exampleResolved = .ok exampleRequested ∧
    step exampleRequested (.respRows exampleRowsEv) = .ok exampleCached ∧
    exampleCached.requests.length = 1 ∧
    lookupField exampleCached.cache
      (generateCacheKey_ exampleCached.worksheetId exampleCached.tabId) =
      some (.vObj [("response", .vObj [("feed", exampleFeed)])]) ∧
    _getCellRows exampleCached = .error (.nullCrash "stopPropagation") :=
  ⟨rfl, rfl, rfl, rfl, rfl⟩

/-- Claim C3, counterexample: with the worksheet id still unresolved in the
private flow, requesting cell rows signals nothing — `_getCellRows` succeeds
and issues a row request whose URL interpolates `null`, and a tab-id change
in the same state is a silent no-op; neither path raises an invalid-state
error. -/
theorem unresolved_getCellRows_counterexample :
    _getCellRows initWorld = .ok { initWorld with
      requests := [⟨"cellrowsajax",
        "https://spreadsheets.google.com/feeds/list/null/1/private/full", []⟩]
      pendingRows := true } ∧
    step initWorld (.setTabId 2) = .ok { initWorld with tabId := 2 } :=
  ⟨rfl, rfl⟩

/-- Claim C3 (amended): the fail-fast check lives one step earlier, in
`_getWorksheet` (the worksheet-metadata fetch): whenever the worksheet id is
unresolved (falsy), it throws the invalid-state error
`workesheetId was not given.` immediately, issuing no request and retrying
nothing.  `_getCellRows` itself performs no such check — it issues a request
with `null` interpolated into the URL — and a tab change before resolution
silently no-ops. -/
theorem getWorksheet_fail_fast :
    (∀ w : World, widTruthy w.worksheetId = false →
      _getWorksheet w = .error (.thrown "workesheetId was not given.")) ∧
    (∀ w : World, w.worksheetId = none → w.published = false →
      _tabIdChanged w = .ok w) ∧
    _getCellRows initWorld = .ok { initWorld with
      requests := [⟨"cellrowsajax",
        "https://spreadsheets.google.com/feeds/list/null/1/private/full", []⟩]
      pendingRows := true } := by
  refine ⟨?_, ?_, rfl⟩
  · intro w h
    unfold _getWorksheet
    rw [h]
    rfl
  · intro w h1 h2
    unfold _tabIdChanged
    rw [h1, h2]
    rfl

/-- Witness for `getWorksheet_fail_fast` on a fresh widget. -/
theorem getWorksheet_fail_fast_witness :
    _getWorksheet initWorld = .error (.thrown "workesheetId was not given.") ∧
    _tabIdChanged initWorld = .ok initWorld :=
  ⟨getWorksheet_fail_fast.1 initWorld rfl,
   getWorksheet_fail_fast.2.1 initWorld rfl rfl⟩


/-! ## Cache-key lemmas (claim C7) -/

theorem toList_append (a b : String) : (a ++ b).toList = a.toList ++ b.toList := rfl

theorem toList_injective {a b : String} (h : a.toList = b.toList) : a = b :=
  String.ext h

theorem cacheKey_toList (wid : Option String) (t : Nat) :
    (generateCacheKey_ wid t).toList =
      (widString wid).toList ++ '_' :: (natDecimal t).toList := by
  unfold generateCacheKey_
  rw [toList_append, toList_append]
  simp

theorem digitChar_ne_underscore : ∀ d, d < 10 → digitChar d ≠ '_' := by decide

theorem natDecimal_no_underscore (n : Nat) : '_' ∉ (natDecimal n).toList := by
  unfold natDecimal
  rw [toList_mk]
  intro hm
  rcases List.mem_map.mp hm with ⟨d, hd, he⟩
  exact digitChar_ne_underscore d
    (toBaseCore_digit_lt 10 (by norm_num) (n + 1) n d hd) he

theorem alnum_ne_underscore {c : Char} (h : isAlnum c = true) : c ≠ '_' := by
  intro he
  subst he
  exact absurd h (by decide)

/-- Splitting at a separator that occurs in neither left part is
unambiguous. -/
theorem sep_split_inj :
    ∀ (a c b d : List Char), '_' ∉ a → '_' ∉ c →
      a ++ '_' :: b = c ++ '_' :: d → a = c ∧ b = d := by
  intro a
  induction a with
  | nil =>
    intro c b d _ hc h
    cases c with
    | nil => simpa using h
    | cons x cs =>
      rw [List.nil_append, List.cons_append] at h
      injection h with h1 h2
      cases h1
      exact absurd (List.mem_cons_self '_' cs) hc
  | cons y ys ih =>
    intro c b d ha hc h
    cases c with
    | nil =>
      rw [List.cons_append, List.nil_append] at h
      injection h with h1 h2
      cases h1
      exact absurd (List.mem_cons_self '_' ys) ha
    | cons x cs =>
      rw [List.cons_append, List.cons_append] at h
      injection h with h1 h2
      have ha' : '_' ∉ ys := fun hm => ha (List.mem_cons_of_mem y hm)
      have hc' : '_' ∉ cs := fun hm => hc (List.mem_cons_of_mem x hm)
      obtain ⟨e1, e2⟩ := ih cs b d ha' hc' h2
      subst h1
      exact ⟨by rw [e1], e2⟩

/-- Claim C7: the cache key separates worksheet+tab pairs.  For any worksheet
id value, distinct tab ids give distinct keys; for alphanumeric worksheet
ids, equal keys imply equal pairs; and after caching `(od4, 1)`, fetching
`(od4, 2)` misses the cache and independently issues its own network
request. -/
theorem cache_key_isolation :
    (∀ (wid : Option String) (t1 t2 : Nat), t1 ≠ t2 →
      generateCacheKey_ wid t1 ≠ generateCacheKey_ wid t2) ∧
    (∀ (w1 w2 : String) (t1 t2 : Nat),
      (∀ c ∈ w1.toList, isAlnum c = true) →
      (∀ c ∈ w2.toList, isAlnum c = true) →
      generateCacheKey_ (some w1) t1 = generateCacheKey_ (some w2) t2 →
      w1 = w2 ∧ t1 = t2) ∧
    _getCellRows { exampleCached with tabId := 2 } = .ok
      { exampleCached with
        tabId := 2
        requests := exampleCached.requests ++
          [⟨"cellrowsajax",
            "https://spreadsheets.google.com/feeds/list/od4/2/private/full", []⟩]
        pendingRows := true } := by
  refine ⟨?_, ?_, rfl⟩
  · intro wid t1 t2 hne heq
    have h := congrArg String.toList heq
    rw [cacheKey_toList, cacheKey_toList] at h
    have h2 := List.append_cancel_left h
    injection h2 with _ h3
    exact hne (natDecimal_injective (toList_injective h3))
  · intro w1 w2 t1 t2 h1 h2 heq
    have h := congrArg String.toList heq
    rw [cacheKey_toList, cacheKey_toList] at h
    have hu1 : '_' ∉ w1.toList := fun hm => alnum_ne_underscore (h1 '_' hm) rfl
    have hu2 : '_' ∉ w2.toList := fun hm => alnum_ne_underscore (h2 '_' hm) rfl
    obtain ⟨e1, e2⟩ := sep_split_inj w1.toList w2.toList
      (natDecimal t1).toList (natDecimal t2).toList hu1 hu2 h
    exact ⟨toList_injective e1, natDecimal_injective (toList_injective e2)⟩

/-- Witness for `cache_key_isolation` at concrete keys and tabs. -/
theorem cache_key_isolation_witness :
    generateCacheKey_ (some "od4") 1 ≠ generateCacheKey_ (some "od4") 2 ∧
    ("w1w" = "w1w" ∧ (3 : Nat) = 3) :=
  ⟨cache_key_isolation.1 (some "od4") 1 2 (by decide),
   cache_key_isolation.2.1 "w1w" "w1w" 3 3 (by decide) (by decide) rfl⟩


/-! ## Cache lemmas (claim C4) -/

theorem bindE_eq_ok {α β : Type} {x : Except JsErr α} {f : α → Except JsErr β}
    {b : β} (h : bindE x f = .ok b) : ∃ a, x = .ok a ∧ f a = .ok b := by
  cases x with
  | error e => rw [bindE_error] at h; cases h
  | ok a => exact ⟨a, rfl, by rwa [bindE_ok] at h⟩

theorem lookupField_append {xs : List (String × JsVal)} {k : String} {v : JsVal}
    (h : lookupField xs k = some v) (ys : List (String × JsVal)) :
    lookupField (xs ++ ys) k = some v := by
  induction xs with
  | nil => simp [lookupField] at h
  | cons p ps ih =>
    rcases p with ⟨k', v'⟩
    rw [List.cons_append]
    unfold lookupField at h ⊢
    by_cases hk : k' = k
    · rwa [if_pos hk] at h ⊢
    · rw [if_neg hk] at h ⊢
      exact ih h

theorem cache_eq_extends {w w' : World} (h : w'.cache = w.cache) :
    cacheExtends w w' := ⟨[], by simp [cacheExtends, h]⟩

theorem keyChanged_cache {w w' : World} (h : _keyChanged w = .ok w') :
    w'.cache = w.cache := by
  unfold _keyChanged at h
  split at h <;> (cases h; rfl)

theorem listSpreadsheets_cache {w w' : World} (h : _listSpreadsheets w = .ok w') :
    w'.cache = w.cache := by
  unfold _listSpreadsheets at h
  cases h; rfl

theorem getWorksheet_cache {w w' : World} (h : _getWorksheet w = .ok w') :
    w'.cache = w.cache := by
  unfold _getWorksheet at h
  split at h
  · cases h; rfl
  · cases h

theorem tabChanged_cache {w w' : World} (h : _tabChanged w = .ok w') :
    w'.cache = w.cache := by
  unfold _tabChanged at h
  split at h
  · cases h
  · cases h; rfl
  · cases h; rfl

theorem setTab_cache {v : JsVal} {w w' : World} (h : _setTab v w = .ok w') :
    w'.cache = w.cache := by
  unfold _setTab at h
  have h2 := tabChanged_cache h
  exact h2

theorem sheetChanged_cache {w w' : World} (h : _sheetChanged w = .ok w') :
    w'.cache = w.cache := by
  unfold _sheetChanged at h
  split at h
  · cases h
  · cases h; rfl
  · have h2 := getWorksheet_cache h
    exact h2

theorem setSheet_cache {v : JsVal} {w w' : World} (h : _setSheet v w = .ok w') :
    w'.cache = w.cache := by
  unfold _setSheet at h
  have h2 := sheetChanged_cache h
  exact h2

theorem spreadsheetScan_cache {entries : JsVal} {w w' : World}
    (h : _spreadsheetScan entries w = .ok w') : w'.cache = w.cache := by
  unfold _spreadsheetScan at h
  split at h
  · cases h; rfl
  · split at h <;>
      first
      | (cases h; rfl)
      | (exact Except.noConfusion h)
      | (have h2 := setSheet_cache h; exact h2)
      | (split at h <;>
          first
          | (cases h; rfl)
          | (exact Except.noConfusion h)
          | (have h2 := setSheet_cache h; exact h2))

theorem onSpreadsheetList_cache {ev : EventObj} {w w' : World}
    (h : _onSpreadsheetList ev w = .ok w') : w'.cache = w.cache := by
  unfold _onSpreadsheetList at h
  obtain ⟨feed, hf, h⟩ := bindE_eq_ok h
  obtain ⟨entries, he, h⟩ := bindE_eq_ok h
  have h2 := spreadsheetScan_cache h
  exact h2

theorem onCellRows_null_crash (w : World) :
    _onCellRows none w = .error (.nullCrash "stopPropagation") := rfl

theorem getCellRows_cache {w w' : World} (h : _getCellRows w = .ok w') :
    w'.cache = w.cache := by
  unfold _getCellRows at h
  split at h
  · rw [onCellRows_null_crash] at h; cases h
  · cases h; rfl

theorem tabIdChanged_cache {w w' : World} (h : _tabIdChanged w = .ok w') :
    w'.cache = w.cache := by
  unfold _tabIdChanged at h
  split at h
  · exact getCellRows_cache h
  · split at h
    · exact keyChanged_cache h
    · cases h; rfl

theorem onWorksheet_cache {ev : EventObj} {w w' : World}
    (h : _onWorksheet ev w = .ok w') : w'.cache = w.cache := by
  unfold _onWorksheet at h
  obtain ⟨entry, hg, h⟩ := bindE_eq_ok h
  obtain ⟨w1, ht, h2⟩ := bindE_eq_ok h
  rw [getCellRows_cache h2, setTab_cache ht]

/-- What `_onCellRows` does to the shared cache on a real response: nothing
when the key is already present, a single appended `response`-wrapped entry
when it is absent. -/
theorem onCellRows_cache_spec {ev : EventObj} {w w' : World}
    (h : _onCellRows (some ev) w = .ok w') :
    (lookupField w.cache (generateCacheKey_ w.worksheetId w.tabId) ≠ none ∧
      w'.cache = w.cache) ∨
    (∃ f, jsGet ev.lastResponse "feed" = .ok f ∧
      lookupField w.cache (generateCacheKey_ w.worksheetId w.tabId) = none ∧
      w'.cache = w.cache ++ [(generateCacheKey_ w.worksheetId w.tabId,
        .vObj [("response", .vObj [("feed", f)])])]) := by
  cases hl : lookupField w.cache (generateCacheKey_ w.worksheetId w.tabId) with
  | some v0 =>
    left
    refine ⟨by simp [hl], ?_⟩
    simp only [_onCellRows, hl] at h
    obtain ⟨feed, hf, h⟩ := bindE_eq_ok h
    obtain ⟨entries, he, h⟩ := bindE_eq_ok h
    obtain ⟨authors, ha, h⟩ := bindE_eq_ok h
    obtain ⟨w2, ht, h2⟩ := bindE_eq_ok h
    cases h2
    split at ht
    · have hc := setTab_cache ht
      exact hc
    · cases ht; rfl
  | none =>
    right
    simp only [_onCellRows, hl] at h
    obtain ⟨feed, hf, h⟩ := bindE_eq_ok h
    obtain ⟨entries, he, h⟩ := bindE_eq_ok h
    obtain ⟨authors, ha, h⟩ := bindE_eq_ok h
    obtain ⟨w2, ht, h2⟩ := bindE_eq_ok h
    cases h2
    refine ⟨feed, hf, rfl, ?_⟩
    split at ht
    · have hc := setTab_cache ht
      exact hc
    · cases ht; rfl

theorem onCellRows_extends {e : Option EventObj} {w w' : World}
    (h : _onCellRows e w = .ok w') : cacheExtends w w' := by
  cases e with
  | none => rw [onCellRows_null_crash] at h; cases h
  | some ev =>
    rcases onCellRows_cache_spec h with ⟨_, hc⟩ | ⟨f, _, _, hc⟩
    · exact cache_eq_extends hc
    · exact ⟨_, hc⟩

/-- No action ever shrinks or rewrites the shared cache. -/
theorem step_cache_extends {w : World} {a : Act} {w' : World}
    (h : step w a = .ok w') : cacheExtends w w' := by
  cases a with
  | setClientId v =>
    simp only [step] at h
    split at h
    · cases h; exact cache_eq_extends rfl
    · have h2 := tabIdChanged_cache h
      exact cache_eq_extends h2
  | setKey v =>
    simp only [step] at h
    split at h
    · cases h; exact cache_eq_extends rfl
    · have h2 := keyChanged_cache h
      exact cache_eq_extends h2
  | setTabId v =>
    simp only [step] at h
    split at h
    · cases h; exact cache_eq_extends rfl
    · have h2 := tabIdChanged_cache h
      exact cache_eq_extends h2
  | setPublished v =>
    simp only [step] at h
    split at h
    · cases h; exact cache_eq_extends rfl
    · have h2 := tabIdChanged_cache h
      exact cache_eq_extends h2
  | signInSuccess tok =>
    simp only [step, _onSignInSuccess] at h
    have h2 := listSpreadsheets_cache h
    exact cache_eq_extends h2
  | signInFail =>
    simp only [step, _onSignInFail] at h
    cases h; exact cache_eq_extends rfl
  | respPublic ev =>
    simp only [step] at h
    split at h
    · have h2 := onCellRows_extends h
      exact h2
    · cases h; exact cache_eq_extends rfl
  | respList ev =>
    simp only [step] at h
    split at h
    · have h2 := onSpreadsheetList_cache h
      exact cache_eq_extends h2
    · cases h; exact cache_eq_extends rfl
  | respWorksheet ev =>
    simp only [step] at h
    split at h
    · have h2 := onWorksheet_cache h
      exact cache_eq_extends h2
    · cases h; exact cache_eq_extends rfl
  | respRows ev =>
    simp only [step] at h
    split at h
    · have h2 := onCellRows_extends h
      exact h2
    · cases h; exact cache_eq_extends rfl

/-- Claim C4, counterexample: the very first inserted cache entry is stored
wrapped as `response / feed`, not with a top-level `feed` field — reading the
entry's `feed` property yields `undefined`, so the claimed entry shape fails
at the first insertion. -/
theorem cache_entry_shape_counterexample :
    step exampleRequested (.respRows exampleRowsEv) = .ok exampleCached ∧
    lookupField exampleCached.cache "od4_1" =
      some (.vObj [("response", .vObj [("feed", exampleFeed)])]) ∧
    jsGet (.vObj [("response", .vObj [("feed", exampleFeed)])]) "feed" =
      .ok .vUndefined :=
  ⟨rfl, rfl, rfl⟩

/-- Claim C4 (amended): the shared cache maps `f(worksheetId, tabId)` to the
`response`-wrapped row feed; on a row-feed response the entry is inserted
only if the key is not already present (never overwritten), and no action of
the widget ever evicts or rewrites an existing entry. -/
theorem cache_write_once :
    (∀ (w : World) (a : Act) (w' : World), step w a = .ok w' →
      ∀ k v, lookupField w.cache k = some v → lookupField w'.cache k = some v) ∧
    (∀ (ev : EventObj) (w w' : World), _onCellRows (some ev) w = .ok w' →
      (lookupField w.cache (generateCacheKey_ w.worksheetId w.tabId) ≠ none ∧
        w'.cache = w.cache) ∨
      (∃ f, jsGet ev.lastResponse "feed" = .ok f ∧
        lookupField w.cache (generateCacheKey_ w.worksheetId w.tabId) = none ∧
        w'.cache = w.cache ++ [(generateCacheKey_ w.worksheetId w.tabId,
          .vObj [("response", .vObj [("feed", f)])])])) := by
  constructor
  · intro w a w' h k v hv
    obtain ⟨tl, htl⟩ := step_cache_extends h
    rw [htl]
    exact lookupField_append hv tl
  · intro ev w w' h
    exact onCellRows_cache_spec h

/-- Witness for `cache_write_once`: after a further action the `od4_1` entry
is still present unchanged, and the response that created it inserted it into
the then-empty slot. -/
theorem cache_write_once_witness :
    lookupField ({ exampleCached with key := "K" } : World).cache "od4_1" =
      some (.vObj [("response", .vObj [("feed", exampleFeed)])]) ∧
    ((lookupField ({ exampleRequested with pendingRows := false } : World).cache
        (generateCacheKey_ exampleRequested.worksheetId exampleRequested.tabId) ≠
        none ∧ exampleCached.cache =
          ({ exampleRequested with pendingRows := false } : World).cache) ∨
      (∃ f, jsGet exampleRowsEv.lastResponse "feed" = .ok f ∧
        lookupField ({ exampleRequested with pendingRows := false } : World).cache
          (generateCacheKey_ exampleRequested.worksheetId exampleRequested.tabId) =
          none ∧
        exampleCached.cache =
          ({ exampleRequested with pendingRows := false } : World).cache ++
            [(generateCacheKey_ exampleRequested.worksheetId exampleRequested.tabId,
              .vObj [("response", .vObj [("feed", f)])])])) :=
  ⟨cache_write_once.1 exampleCached (.setKey "K")
      { exampleCached with key := "K" } rfl "od4_1" _ rfl,
   cache_write_once.2 exampleRowsEv { exampleRequested with pendingRows := false }
      exampleCached rfl⟩


/-! ## Projection lemmas (claim C8) -/

theorem authorPair_authorIn (em nm : String) :
    authorPair (authorIn em nm) = .ok (authorOut em nm) := rfl

theorem mapAuthors_authorIn :
    ∀ auths : List (String × String),
      mapAuthors (auths.map fun p => authorIn p.1 p.2) =
        .ok (auths.map fun p => authorOut p.1 p.2) := by
  intro auths
  induction auths with
  | nil => rfl
  | cons p ps ih =>
    simp only [List.map_cons, mapAuthors, authorPair_authorIn, bindE_ok, ih]

theorem authorsExpr_sheetResp (t ts idStr : String)
    (auths : List (String × String)) :
    authorsExpr (sheetResp t ts idStr auths) =
      .ok (.vArr (auths.map fun p => authorOut p.1 p.2)) := by
  unfold authorsExpr
  rw [show jsGet (sheetResp t ts idStr auths) "author" =
    .ok (.vArr (auths.map fun p => authorIn p.1 p.2)) from rfl]
  simp only [bindE_ok]
  rw [if_pos (show truthy (.vArr (auths.map fun p => authorIn p.1 p.2)) = true
    from rfl)]
  rw [mapAuthors_authorIn auths]
  rfl

theorem authorsExpr_tabResp (t ts : String) (auths : List (String × String)) :
    authorsExpr (tabResp t ts auths) =
      .ok (.vArr (auths.map fun p => authorOut p.1 p.2)) := by
  unfold authorsExpr
  rw [show jsGet (tabResp t ts auths) "author" =
    .ok (.vArr (auths.map fun p => authorIn p.1 p.2)) from rfl]
  simp only [bindE_ok]
  rw [if_pos (show truthy (.vArr (auths.map fun p => authorIn p.1 p.2)) = true
    from rfl)]
  rw [mapAuthors_authorIn auths]
  rfl

theorem sheetNorm_sheetResp (t ts idStr : String)
    (auths : List (String × String)) :
    sheetNorm (sheetResp t ts idStr auths) =
      .ok (some (sheetRespNorm t ts idStr auths, lastSegment idStr)) := by
  unfold sheetNorm
  rw [show jsGet (sheetResp t ts idStr auths) "title" = .ok (wrapText t) from rfl]
  simp only [bindE_ok]
  rw [if_pos (show truthy (wrapText t) = true from rfl)]
  rw [authorsExpr_sheetResp]
  simp only [bindE_ok]
  rfl

theorem tabNorm_tabResp (t ts : String) (auths : List (String × String)) :
    tabNorm (tabResp t ts auths) = .ok (some (tabRespNorm t ts auths)) := by
  unfold tabNorm
  rw [show jsGet (tabResp t ts auths) "title" = .ok (wrapText t) from rfl]
  simp only [bindE_ok]
  rw [if_pos (show truthy (wrapText t) = true from rfl)]
  rw [authorsExpr_tabResp]
  simp only [bindE_ok]
  rfl

/-- The tab observer's effect on `this.tab` is a function of the tab value
alone: untouched when `tabNorm` declines (falsy title), otherwise the
normalized object. -/
theorem tabChanged_tab_spec {w w' : World} (h : _tabChanged w = .ok w') :
    (tabNorm w.tab = .ok none ∧ w'.tab = w.tab) ∨
    (∃ t', tabNorm w.tab = .ok (some t') ∧ w'.tab = t') := by
  unfold _tabChanged at h
  split at h
  · cases h
  · rename_i heq
    cases h
    exact Or.inl ⟨heq, rfl⟩
  · rename_i t' heq
    cases h
    exact Or.inr ⟨t', heq, rfl⟩

/-- Claim C8: projection correctness.  A sheet response with wrapped fields
projects to a plain-string `title`, a date value built from the input
timestamp, and `authors` as email/name pairs in input order (the derived
worksheet id being the last path segment of `id.$t`); a tab response is
normalized the same way; and the tab observer output depends only on the
assigned value — both the private path (`_onWorksheet` adopting the response
entry) and the public path (`_onCellRows` adopting the row feed) set the tab
through the same `_setTab`/`_tabChanged`, so either fetch path yields the
identical normalization. -/
theorem projection_correctness :
    (∀ (t ts idStr : String) (auths : List (String × String)),
      sheetNorm (sheetResp t ts idStr auths) =
        .ok (some (sheetRespNorm t ts idStr auths, lastSegment idStr))) ∧
    (∀ (t ts : String) (auths : List (String × String)),
      tabNorm (tabResp t ts auths) = .ok (some (tabRespNorm t ts auths))) ∧
    (∀ (v : JsVal) (w1 w2 r1 r2 : World),
      _setTab v w1 = .ok r1 → _setTab v w2 = .ok r2 → r1.tab = r2.tab) := by
  refine ⟨sheetNorm_sheetResp, tabNorm_tabResp, ?_⟩
  intro v w1 w2 r1 r2 h1 h2
  unfold _setTab at h1 h2
  rcases tabChanged_tab_spec h1 with ⟨hn1, e1⟩ | ⟨t1, hn1, e1⟩ <;>
    rcases tabChanged_tab_spec h2 with ⟨hn2, e2⟩ | ⟨t2, hn2, e2⟩
  · have f1 : r1.tab = v := e1
    have f2 : r2.tab = v := e2
    rw [f1, f2]
  · have g1 : tabNorm v = .ok none := hn1
    have g2 : tabNorm v = .ok (some t2) := hn2
    rw [g1] at g2
    simp at g2
  · have g1 : tabNorm v = .ok (some t1) := hn1
    have g2 : tabNorm v = .ok none := hn2
    rw [g2] at g1
    simp at g1
  · have g1 : tabNorm v = .ok (some t1) := hn1
    have g2 : tabNorm v = .ok (some t2) := hn2
    rw [g1] at g2
    have : t1 = t2 := by
      injection g2 with g3
      exact (Option.some_injective _ g3.symm).symm
    rw [e1, e2, this]

/-- Witness for `projection_correctness` at a concrete response and concrete
tab assignments. -/
theorem projection_correctness_witness :
    sheetNorm (sheetResp "T" "2015-06-01" "x/od4" [("e", "n")]) =
      .ok (some (sheetRespNorm "T" "2015-06-01" "x/od4" [("e", "n")], "od4")) ∧
    tabNorm (tabResp "T" "2015-06-01" [("e", "n")]) =
      .ok (some (tabRespNorm "T" "2015-06-01" [("e", "n")])) ∧
    ({ initWorld with tab := JsVal.vObj [] } : World).tab =
      ({ initWorld with key := "K", tab := JsVal.vObj [] } : World).tab :=
  ⟨projection_correctness.1 "T" "2015-06-01" "x/od4" [("e", "n")],
   projection_correctness.2.1 "T" "2015-06-01" [("e", "n")],
   projection_correctness.2.2 (JsVal.vObj []) initWorld
     { initWorld with key := "K" }
     { initWorld with tab := JsVal.vObj [] }
     { initWorld with key := "K", tab := JsVal.vObj [] } rfl rfl⟩


/-! ## Stage-discipline lemmas (claim C5) -/

theorem bool_of_not_true {b : Bool} (h : ¬ b = true) : b = false := by
  cases b
  · rfl
  · exact absurd rfl h

theorem anyList_append (rs : List Request) (r : Request) :
    anyList (rs ++ [r]) = (anyList rs || isListReq r) := by
  simp [anyList, List.any_append]

theorem anyWs_append (rs : List Request) (r : Request) :
    anyWs (rs ++ [r]) = (anyWs rs || isWsReq r) := by
  simp [anyWs, List.any_append]

theorem staged_append_listreq :
    ∀ (rs : List Request) (hl hw : Bool), stagedFrom hl hw rs →
      ∀ url hs, stagedFrom hl hw (rs ++ [⟨"listsheetsajax", url, hs⟩]) := by
  intro rs
  induction rs with
  | nil =>
    intro hl hw _ url hs
    simp [stagedFrom, isPubReq, isListReq]
  | cons x xs ih =>
    intro hl hw hst url hs
    rw [List.cons_append]
    unfold stagedFrom at hst ⊢
    by_cases hp : isPubReq x = true
    · rw [if_pos hp] at hst
      exact hst.elim
    · rw [if_neg hp] at hst ⊢
      by_cases hli : isListReq x = true
      · rw [if_pos hli] at hst ⊢
        exact ih true hw hst url hs
      · rw [if_neg hli] at hst ⊢
        by_cases hws : isWsReq x = true
        · rw [if_pos hws] at hst ⊢
          exact ⟨hst.1, ih hl true hst.2 url hs⟩
        · rw [if_neg hws] at hst ⊢
          by_cases hrw : isRowsReq x = true
          · rw [if_pos hrw] at hst ⊢
            exact ⟨hst.1, ih hl hw hst.2 url hs⟩
          · rw [if_neg hrw] at hst
            exact hst.elim

theorem staged_append_wsreq :
    ∀ (rs : List Request) (hl hw : Bool), stagedFrom hl hw rs →
      (hl || anyList rs) = true →
      ∀ url hs, stagedFrom hl hw (rs ++ [⟨"worksheetajax", url, hs⟩]) := by
  intro rs
  induction rs with
  | nil =>
    intro hl hw _ hside url hs
    have hhl : hl = true := by simpa [anyList] using hside
    subst hhl
    simp [stagedFrom, isPubReq, isListReq, isWsReq]
  | cons x xs ih =>
    intro hl hw hst hside url hs
    rw [List.cons_append]
    unfold stagedFrom at hst ⊢
    by_cases hp : isPubReq x = true
    · rw [if_pos hp] at hst
      exact hst.elim
    · rw [if_neg hp] at hst ⊢
      by_cases hli : isListReq x = true
      · rw [if_pos hli] at hst ⊢
        exact ih true hw hst (by simp) url hs
      · rw [if_neg hli] at hst ⊢
        have hside' : (hl || anyList xs) = true := by
          simpa [anyList, List.any_cons, bool_of_not_true hli] using hside
        by_cases hws : isWsReq x = true
        · rw [if_pos hws] at hst ⊢
          exact ⟨hst.1, ih hl true hst.2 hside' url hs⟩
        · rw [if_neg hws] at hst ⊢
          by_cases hrw : isRowsReq x = true
          · rw [if_pos hrw] at hst ⊢
            exact ⟨hst.1, ih hl hw hst.2 hside' url hs⟩
          · rw [if_neg hrw] at hst
            exact hst.elim

theorem staged_append_rowsreq :
    ∀ (rs : List Request) (hl hw : Bool), stagedFrom hl hw rs →
      (hw || anyWs rs) = true →
      ∀ url hs, stagedFrom hl hw (rs ++ [⟨"cellrowsajax", url, hs⟩]) := by
  intro rs
  induction rs with
  | nil =>
    intro hl hw _ hside url hs
    have hhw : hw = true := by simpa [anyWs] using hside
    subst hhw
    simp [stagedFrom, isPubReq, isListReq, isWsReq, isRowsReq]
  | cons x xs ih =>
    intro hl hw hst hside url hs
    rw [List.cons_append]
    unfold stagedFrom at hst ⊢
    by_cases hp : isPubReq x = true
    · rw [if_pos hp] at hst
      exact hst.elim
    · rw [if_neg hp] at hst ⊢
      by_cases hli : isListReq x = true
      · rw [if_pos hli] at hst ⊢
        have hxe : x.element = "listsheetsajax" := by simpa [isListReq] using hli
        have hwsf : isWsReq x = false := by simp [isWsReq, hxe]
        have hside' : (hw || anyWs xs) = true := by
          simpa [anyWs, List.any_cons, hwsf] using hside
        exact ih true hw hst hside' url hs
      · rw [if_neg hli] at hst ⊢
        by_cases hws : isWsReq x = true
        · rw [if_pos hws] at hst ⊢
          exact ⟨hst.1, ih hl true hst.2 (by simp) url hs⟩
        · rw [if_neg hws] at hst ⊢
          have hside' : (hw || anyWs xs) = true := by
            simpa [anyWs, List.any_cons, bool_of_not_true hws] using hside
          by_cases hrw : isRowsReq x = true
          · rw [if_pos hrw] at hst ⊢
            exact ⟨hst.1, ih hl hw hst.2 hside' url hs⟩
          · rw [if_neg hrw] at hst
            exact hst.elim


/-! ## Quiet-flow invariant (claim C5, part 1) -/

theorem keyChanged_noop {w : World} (hpub : w.published = false) :
    _keyChanged w = .ok w := by
  unfold _keyChanged
  rw [hpub]
  rfl

theorem tabIdChanged_noop {w : World} (h1 : widTruthy w.worksheetId = false)
    (h2 : w.published = false) : _tabIdChanged w = .ok w := by
  unfold _tabIdChanged
  rw [h1, h2]
  rfl

theorem quietInv_step {w : World} {a : Act} {w' : World}
    (hA : quietAct a = true) (hI : QuietInv w) (h : step w a = .ok w') :
    QuietInv w' := by
  cases a with
  | setClientId v =>
    simp only [step] at h
    split at h
    · cases h; exact hI
    · have hn : _configUpdate { w with clientId := v } =
          .ok { w with clientId := v } :=
        tabIdChanged_noop (show widTruthy w.worksheetId = false by rw [hI.wid]; rfl)
          hI.pub
      rw [hn] at h
      cases h
      exact ⟨hI.pub, hI.reqs, hI.wid, hI.pubPend, hI.listPend, hI.wsPend,
        hI.rowsPend⟩
  | setKey v =>
    simp only [step] at h
    split at h
    · cases h; exact hI
    · have hn : _keyChanged { w with key := v } = .ok { w with key := v } :=
        keyChanged_noop hI.pub
      rw [hn] at h
      cases h
      exact ⟨hI.pub, hI.reqs, hI.wid, hI.pubPend, hI.listPend, hI.wsPend,
        hI.rowsPend⟩
  | setTabId v =>
    simp only [step] at h
    split at h
    · cases h; exact hI
    · have hn : _configUpdate { w with tabId := v } =
          .ok { w with tabId := v } :=
        tabIdChanged_noop (show widTruthy w.worksheetId = false by rw [hI.wid]; rfl)
          hI.pub
      rw [hn] at h
      cases h
      exact ⟨hI.pub, hI.reqs, hI.wid, hI.pubPend, hI.listPend, hI.wsPend,
        hI.rowsPend⟩
  | setPublished v => simp [quietAct] at hA
  | signInSuccess tok => simp [quietAct] at hA
  | signInFail =>
    simp only [step, _onSignInFail] at h
    cases h; exact hI
  | respPublic ev =>
    simp only [step] at h
    rw [hI.pubPend, if_neg (by simp)] at h
    cases h; exact hI
  | respList ev =>
    simp only [step] at h
    rw [hI.listPend, if_neg (by simp)] at h
    cases h; exact hI
  | respWorksheet ev =>
    simp only [step] at h
    rw [hI.wsPend, if_neg (by simp)] at h
    cases h; exact hI
  | respRows ev =>
    simp only [step] at h
    rw [hI.rowsPend, if_neg (by simp)] at h
    cases h; exact hI

theorem quietInv_runAll {w : World} {tr : List Act} {w' : World}
    (hA : ∀ a ∈ tr, quietAct a = true) (hI : QuietInv w)
    (h : runAll w tr = .ok w') : QuietInv w' := by
  induction tr generalizing w with
  | nil =>
    unfold runAll at h
    cases h
    exact hI
  | cons a rest ih =>
    cases hs : step w a with
    | error e =>
      simp only [runAll, hs] at h
      exact Except.noConfusion h
    | ok w1 =>
      simp only [runAll, hs] at h
      exact ih (fun b hb => hA b (List.mem_cons_of_mem a hb))
        (quietInv_step (hA a (List.mem_cons_self a rest)) hI hs) h

theorem quietInv_init : QuietInv initWorld :=
  ⟨rfl, rfl, rfl, rfl, rfl, rfl, rfl⟩


/-! ## Private-flow invariant (claim C5, part 2) -/

theorem tabChanged_requests {w w' : World} (h : _tabChanged w = .ok w') :
    w'.requests = w.requests := by
  unfold _tabChanged at h
  split at h
  · exact Except.noConfusion h
  · cases h; rfl
  · cases h; rfl

theorem setTab_requests {v : JsVal} {w w' : World} (h : _setTab v w = .ok w') :
    w'.requests = w.requests := by
  unfold _setTab at h
  have h2 := tabChanged_requests h
  exact h2

theorem getCellRows_priv {w w' : World} (hI : PrivInv w)
    (hanyW : anyWs w.requests = true) (h : _getCellRows w = .ok w') :
    PrivInv w' := by
  unfold _getCellRows at h
  split at h
  · rw [onCellRows_null_crash] at h
    exact Except.noConfusion h
  · cases h
    refine ⟨hI.pub, ?_, hI.pubPend, ?_, ?_, ?_⟩
    · exact staged_append_rowsreq w.requests false false hI.st
        (by simp [hanyW]) _ _
    · intro hp
      have hx := hI.listPend hp
      simp [anyList_append, hx]
    · intro hp
      have hx := hI.wsPend hp
      simp [anyList_append, anyWs_append, hx.1, hx.2]
    · intro hp
      have hx := hI.widReq hp
      simp [anyList_append, anyWs_append, hx.1, hx.2]

theorem tabChanged_priv {w w' : World} (hI : PrivInv w)
    (h : _tabChanged w = .ok w') : PrivInv w' := by
  unfold _tabChanged at h
  split at h
  · exact Except.noConfusion h
  · cases h; exact hI
  · cases h
    exact ⟨hI.pub, hI.st, hI.pubPend, hI.listPend, hI.wsPend, hI.widReq⟩

theorem setTab_priv {v : JsVal} {w w' : World} (hI : PrivInv w)
    (h : _setTab v w = .ok w') : PrivInv w' := by
  unfold _setTab at h
  have hI2 : PrivInv { w with tab := v } :=
    ⟨hI.pub, hI.st, hI.pubPend, hI.listPend, hI.wsPend, hI.widReq⟩
  exact tabChanged_priv hI2 h

theorem getWorksheet_priv {w w' : World} (h : _getWorksheet w = .ok w')
    (hpub : w.published = false) (hst : staged w.requests)
    (hpp : w.pendingPublic = false)
    (hlp : w.pendingList = true → anyList w.requests = true)
    (hanyL : anyList w.requests = true) : PrivInv w' := by
  unfold _getWorksheet at h
  split at h
  · cases h
    refine ⟨hpub, ?_, hpp, ?_, ?_, ?_⟩
    · exact staged_append_wsreq w.requests false false hst (by simp [hanyL]) _ _
    · intro hp
      have hx := hlp hp
      simp [anyList_append, hx]
    · intro _
      constructor
      · simp [anyWs_append, isWsReq]
      · simp [anyList_append, hanyL]
    · intro _
      constructor
      · simp [anyWs_append, isWsReq]
      · simp [anyList_append, hanyL]
  · exact Except.noConfusion h

theorem setSheet_priv {v : JsVal} {w w' : World} (hI : PrivInv w)
    (hanyL : anyList w.requests = true) (h : _setSheet v w = .ok w') :
    PrivInv w' := by
  unfold _setSheet _sheetChanged at h
  split at h
  · exact Except.noConfusion h
  · cases h
    exact ⟨hI.pub, hI.st, hI.pubPend, hI.listPend, hI.wsPend, hI.widReq⟩
  · exact getWorksheet_priv h hI.pub hI.st hI.pubPend hI.listPend hanyL

theorem spreadsheetScan_priv {entries : JsVal} {w w' : World} (hI : PrivInv w)
    (hanyL : anyList w.requests = true)
    (h : _spreadsheetScan entries w = .ok w') : PrivInv w' := by
  unfold _spreadsheetScan at h
  split at h
  · cases h; exact hI
  · split at h <;>
      first
      | (exact Except.noConfusion h)
      | (cases h; exact hI)
      | (exact setSheet_priv hI hanyL h)
      | (split at h <;>
          first
          | (exact Except.noConfusion h)
          | (cases h; exact hI)
          | (exact setSheet_priv hI hanyL h))

theorem onSpreadsheetList_priv {ev : EventObj} {w w' : World} (hI : PrivInv w)
    (hanyL : anyList w.requests = true)
    (h : _onSpreadsheetList ev w = .ok w') : PrivInv w' := by
  unfold _onSpreadsheetList at h
  obtain ⟨feed, hf, h⟩ := bindE_eq_ok h
  obtain ⟨entries, he, h⟩ := bindE_eq_ok h
  have hI1 : PrivInv { w with
      spreadsheets := entries
      events := w.events ++ [("spreadsheets", entries)] } :=
    ⟨hI.pub, hI.st, hI.pubPend, hI.listPend, hI.wsPend, hI.widReq⟩
  exact spreadsheetScan_priv hI1 hanyL h

theorem onCellRows_priv {ev : EventObj} {w w' : World} (hI : PrivInv w)
    (h : _onCellRows (some ev) w = .ok w') : PrivInv w' := by
  simp only [_onCellRows] at h
  obtain ⟨feed, hf, h⟩ := bindE_eq_ok h
  obtain ⟨entries, he, h⟩ := bindE_eq_ok h
  obtain ⟨authors, ha, h⟩ := bindE_eq_ok h
  obtain ⟨w2, ht, h2⟩ := bindE_eq_ok h
  split at ht
  · rename_i hpubT
    have hp2 : w.published = true := hpubT
    rw [hI.pub] at hp2
    exact absurd hp2 (by decide)
  · cases ht
    cases h2
    exact ⟨hI.pub, hI.st, hI.pubPend, hI.listPend, hI.wsPend, hI.widReq⟩

theorem onWorksheet_priv {ev : EventObj} {w w' : World} (hI : PrivInv w)
    (hanyW : anyWs w.requests = true) (h : _onWorksheet ev w = .ok w') :
    PrivInv w' := by
  unfold _onWorksheet at h
  obtain ⟨entry, hg, h⟩ := bindE_eq_ok h
  obtain ⟨w1, ht, h2⟩ := bindE_eq_ok h
  have hI1 : PrivInv w1 := setTab_priv hI ht
  have hw1 : anyWs w1.requests = true := by
    rw [setTab_requests ht]
    exact hanyW
  exact getCellRows_priv hI1 hw1 h2

theorem privInv_step {w : World} {a : Act} {w' : World}
    (hA : privAct a = true) (hI : PrivInv w) (h : step w a = .ok w') :
    PrivInv w' := by
  cases a with
  | setClientId v =>
    simp only [step] at h
    split at h
    · cases h; exact hI
    · simp only [_configUpdate, _tabIdChanged] at h
      split at h
      · rename_i hwid
        have hwid2 : widTruthy w.worksheetId = true := hwid
        have hI2 : PrivInv { w with clientId := v } :=
          ⟨hI.pub, hI.st, hI.pubPend, hI.listPend, hI.wsPend, hI.widReq⟩
        exact getCellRows_priv hI2 (hI.widReq hwid2).1 h
      · split at h
        · rename_i hpub
          have hp2 : w.published = true := hpub
          rw [hI.pub] at hp2
          exact absurd hp2 (by decide)
        · cases h
          exact ⟨hI.pub, hI.st, hI.pubPend, hI.listPend, hI.wsPend, hI.widReq⟩
  | setKey v =>
    simp only [step] at h
    split at h
    · cases h; exact hI
    · have hn : _keyChanged { w with key := v } = .ok { w with key := v } :=
        keyChanged_noop hI.pub
      rw [hn] at h
      cases h
      exact ⟨hI.pub, hI.st, hI.pubPend, hI.listPend, hI.wsPend, hI.widReq⟩
  | setTabId v =>
    simp only [step] at h
    split at h
    · cases h; exact hI
    · simp only [_configUpdate, _tabIdChanged] at h
      split at h
      · rename_i hwid
        have hwid2 : widTruthy w.worksheetId = true := hwid
        have hI2 : PrivInv { w with tabId := v } :=
          ⟨hI.pub, hI.st, hI.pubPend, hI.listPend, hI.wsPend, hI.widReq⟩
        exact getCellRows_priv hI2 (hI.widReq hwid2).1 h
      · split at h
        · rename_i hpub
          have hp2 : w.published = true := hpub
          rw [hI.pub] at hp2
          exact absurd hp2 (by decide)
        · cases h
          exact ⟨hI.pub, hI.st, hI.pubPend, hI.listPend, hI.wsPend, hI.widReq⟩
  | setPublished v => simp [privAct] at hA
  | signInSuccess tok =>
    simp only [step, _onSignInSuccess, _listSpreadsheets] at h
    cases h
    refine ⟨hI.pub, ?_, hI.pubPend, ?_, ?_, ?_⟩
    · exact staged_append_listreq w.requests false false hI.st _ _
    · intro _
      simp [anyList_append, isListReq]
    · intro hp
      have hx := hI.wsPend hp
      simp [anyList_append, anyWs_append, hx.1, hx.2]
    · intro hp
      have hx := hI.widReq hp
      simp [anyList_append, anyWs_append, hx.1, hx.2]
  | signInFail =>
    simp only [step, _onSignInFail] at h
    cases h; exact hI
  | respPublic ev =>
    simp only [step] at h
    split at h
    · rename_i hp
      have hp2 : w.pendingPublic = true := hp
      rw [hI.pubPend] at hp2
      exact absurd hp2 (by decide)
    · cases h; exact hI
  | respList ev =>
    simp only [step] at h
    split at h
    · rename_i hp
      have hp2 : w.pendingList = true := hp
      have hanyL := hI.listPend hp2
      have hI2 : PrivInv { w with pendingList := false } :=
        ⟨hI.pub, hI.st, hI.pubPend,
          fun hq => absurd (show (false : Bool) = true from hq) (by decide),
          hI.wsPend, hI.widReq⟩
      exact onSpreadsheetList_priv hI2 hanyL h
    · cases h; exact hI
  | respWorksheet ev =>
    simp only [step] at h
    split at h
    · rename_i hp
      have hp2 : w.pendingWs = true := hp
      have hws := hI.wsPend hp2
      have hI2 : PrivInv { w with pendingWs := false } :=
        ⟨hI.pub, hI.st, hI.pubPend, hI.listPend,
          fun hq => absurd (show (false : Bool) = true from hq) (by decide),
          hI.widReq⟩
      exact onWorksheet_priv hI2 hws.1 h
    · cases h; exact hI
  | respRows ev =>
    simp only [step] at h
    split at h
    · have hI2 : PrivInv { w with pendingRows := false } :=
        ⟨hI.pub, hI.st, hI.pubPend, hI.listPend, hI.wsPend, hI.widReq⟩
      exact onCellRows_priv hI2 h
    · cases h; exact hI

theorem privInv_runAll {w : World} {tr : List Act} {w' : World}
    (hA : ∀ a ∈ tr, privAct a = true) (hI : PrivInv w)
    (h : runAll w tr = .ok w') : PrivInv w' := by
  induction tr generalizing w with
  | nil =>
    unfold runAll at h
    cases h
    exact hI
  | cons a rest ih =>
    cases hs : step w a with
    | error e =>
      simp only [runAll, hs] at h
      exact Except.noConfusion h
    | ok w1 =>
      simp only [runAll, hs] at h
      exact ih (fun b hb => hA b (List.mem_cons_of_mem a hb))
        (privInv_step (hA a (List.mem_cons_self a rest)) hI hs) h

theorem privInv_init : PrivInv initWorld :=
  ⟨rfl, trivial, rfl, fun hq => absurd hq (by decide),
   fun hq => absurd hq (by decide), fun hq => absurd hq (by decide)⟩


/-- Claim C5: private-flow sequencing.  (1) With `published = false`, no
trace of configuration changes, failed sign-ins and responses — in
particular, setting `key` — issues any network request before a sign-in
success.  (2) Over every private trace the request log observes the stage
discipline: no public request ever, every worksheet-metadata request strictly
after a spreadsheet-list request, every private row request strictly after a
worksheet-metadata request.  (3) On the canonical run — set a key, sign in,
deliver a matching list response, deliver the worksheet response — exactly
the three requests fire in order: the spreadsheet list (with the bearer
Authorization header), the worksheet metadata, then the row feed. -/
theorem private_flow_sequencing :
    (∀ (tr : List Act) (w' : World), (∀ a ∈ tr, quietAct a = true) →
      runAll initWorld tr = .ok w' → w'.requests = []) ∧
    (∀ (tr : List Act) (w' : World), (∀ a ∈ tr, privAct a = true) →
      runAll initWorld tr = .ok w' → staged w'.requests) ∧
    (∃ w' : World,
      runAll initWorld [.setKey "KEY", .signInSuccess "TOK",
        .respList sampleListEv, .respWorksheet sampleWorksheetEv] = .ok w' ∧
      w'.requests =
        [⟨"listsheetsajax",
          "https://spreadsheets.google.com/feeds/spreadsheets/private/full",
          [("Authorization", "Bearer TOK")]⟩,
         ⟨"worksheetajax",
          "https://spreadsheets.google.com/feeds/worksheets/od4/private/full/1",
          [("Authorization", "Bearer TOK")]⟩,
         ⟨"cellrowsajax",
          "https://spreadsheets.google.com/feeds/list/od4/1/private/full",
          [("Authorization", "Bearer TOK")]⟩]) := by
  refine ⟨?_, ?_, ?_⟩
  · intro tr w' hA h
    exact (quietInv_runAll hA quietInv_init h).reqs
  · intro tr w' hA h
    exact (privInv_runAll hA privInv_init h).st
  · exact ⟨_, rfl, rfl⟩

/-- Witness for `private_flow_sequencing`: the trace that only sets the key
issues nothing and trivially observes the stage discipline. -/
theorem private_flow_sequencing_witness :
    ({ initWorld with key := "K" } : World).requests = ([] : List Request) ∧
    staged ({ initWorld with key := "K" } : World).requests :=
  ⟨private_flow_sequencing.1 [.setKey "K"] { initWorld with key := "K" }
      (by decide) rfl,
   private_flow_sequencing.2.1 [.setKey "K"] { initWorld with key := "K" }
      (by decide) rfl⟩

end GoogleSheets
